import Mathlib

/-!
# Verification of the image-transition compositor

Shallow embedding of `sfml_imgui/main.cpp`: the frame renderer
`RenderTransitionFrame`, the two GLSL fragment shaders (`lumaShaderCode`,
`blurShaderCode`), the perspective models of the Cube-Rotate and Ring
transitions, and the export loop of `main`.

Modelling conventions:
* C++ `float` scalars are modelled as exact rationals `ℚ` (or reals `ℝ`
  where the code computes `cos`/`sin`/`exp`); float rounding is not modelled.
* A call to `RenderTransitionFrame` is modelled as a function from
  (transition type, progress, the two texture sizes, mutable render state)
  to a list of abstract draw operations plus the successor state.  A draw
  operation records everything that determines the drawn pixels: which
  texture, the full sprite transform/colour state, the texture's smoothing
  flag, and the fragment shader applied (if any).
* GLSL per-pixel arithmetic (luma wipe, blur) is modelled directly on
  normalised colours with channels in `[0,1]`, exactly as in the shader
  source.
-/

set_option maxRecDepth 10000

namespace ImageTransitions

/-- Canvas width, `float width = 1200.0f` in `RenderTransitionFrame`. -/
def canvasW : ℚ := 1200

/-- Canvas height, `float height = 800.0f` in `RenderTransitionFrame`. -/
def canvasH : ℚ := 800

/-- A texture: only its pixel dimensions matter for the transform math
(`sf::Texture::getSize`). -/
structure Tex where
  w : ℕ
  h : ℕ
deriving DecidableEq, Repr

/-- The mutable state of an `sf::Sprite` that the renderer reads and writes:
colour (RGB bytes and alpha byte), origin, position, scale and rotation
(degrees). -/
structure SpriteState where
  red : ℕ
  green : ℕ
  blue : ℕ
  alpha : ℕ
  originX : ℚ
  originY : ℚ
  posX : ℚ
  posY : ℚ
  scaleX : ℚ
  scaleY : ℚ
  rot : ℚ
deriving DecidableEq, Repr

/-- The state reset of lines 197–212: white colour, zero origin/position/
rotation, scale fitted to the canvas (`width / sz.x`, `height / sz.y`). -/
def resetSprite (t : Tex) : SpriteState where
  red := 255
  green := 255
  blue := 255
  alpha := 255
  originX := 0
  originY := 0
  posX := 0
  posY := 0
  scaleX := canvasW / t.w
  scaleY := canvasH / t.h
  rot := 0

/-- `(std::uint8_t)(q)` for a nonnegative float expression: truncation. -/
def alphaByte (q : ℚ) : ℕ := (⌊q⌋).toNat

/-- A fragment shader attached to a draw, with the uniform set for this
frame: the luma-wipe shader carries `progress`, the blur shader carries
`blurRadius`. -/
inductive Shader where
  | luma (progress : ℚ)
  | blur (radius : ℚ)
deriving DecidableEq, Repr

/-- One abstract draw operation issued to the render target. -/
inductive Op where
  | clear
  | sprite (img : Fin 2) (st : SpriteState) (smooth : Bool) (shader : Option Shader)
  | persp (kind : ℕ) (progress : ℚ)
deriving DecidableEq, Repr

/-- The inter-call mutable state: the two sprites and the two textures'
smoothing flags (`setSmooth`). -/
structure RState where
  s1 : SpriteState
  s2 : SpriteState
  sm1 : Bool
  sm2 : Bool
deriving DecidableEq, Repr

/-- Blur strength of case 11: `progress*2` on the way up, `(1-progress)*2`
on the way down. -/
def blurStrength (p : ℚ) : ℚ := if p ≤ 1/2 then p * 2 else (1 - p) * 2

/-- The `blurRadius` uniform set by case 11: `blurStrength * 150.0f`. -/
def blurRadiusOf (p : ℚ) : ℚ := blurStrength p * 150

/-- The common drawing section of lines 721–744: clear, then draw in the
order selected by the transition type and `drawMode`. -/
def drawTail (type dm : ℕ) (o1 o2 : Op) : List Op :=
  Op.clear ::
    (if type = 5 ∨ type = 10 then [o2, o1]
     else if dm = 1 then [o1]
     else if dm = 2 then [o2]
     else [o1, o2])

/-- `RenderTransitionFrame`: given transition type, progress, the two
texture sizes and the incoming mutable state, produce the list of draw
operations issued to the target and the successor mutable state.  Each
branch mirrors the corresponding `case` of the `switch` in the source. -/
def renderCall (type : ℕ) (p : ℚ) (t1 t2 : Tex) (st : RState) : List Op × RState :=
  -- state reset (lines 197–212), applied only to a sprite whose texture is present
  let s1 := if 0 < t1.w then resetSprite t1 else st.s1
  let s2 := if 0 < t2.w then resetSprite t2 else st.s2
  -- missing-image branch (lines 214–219): draw what is present, return
  if t1.w = 0 ∨ t2.w = 0 then
    ((if 0 < t1.w then [Op.sprite 0 s1 st.sm1 none] else []) ++
     (if 0 < t2.w then [Op.sprite 1 s2 st.sm2 none] else []),
     ⟨s1, s2, st.sm1, st.sm2⟩)
  else if type = 0 then -- Slide Left
    let s2 := { s2 with posX := -canvasW * (1 - p), posY := 0 }
    (drawTail type 0 (Op.sprite 0 s1 st.sm1 none) (Op.sprite 1 s2 st.sm2 none),
     ⟨s1, s2, st.sm1, st.sm2⟩)
  else if type = 1 then -- Slide Right
    let s2 := { s2 with posX := canvasW * (1 - p), posY := 0 }
    (drawTail type 0 (Op.sprite 0 s1 st.sm1 none) (Op.sprite 1 s2 st.sm2 none),
     ⟨s1, s2, st.sm1, st.sm2⟩)
  else if type = 2 then -- Slide Top
    let s2 := { s2 with posX := 0, posY := -canvasH * (1 - p) }
    (drawTail type 0 (Op.sprite 0 s1 st.sm1 none) (Op.sprite 1 s2 st.sm2 none),
     ⟨s1, s2, st.sm1, st.sm2⟩)
  else if type = 3 then -- Slide Bottom
    let s2 := { s2 with posX := 0, posY := canvasH * (1 - p) }
    (drawTail type 0 (Op.sprite 0 s1 st.sm1 none) (Op.sprite 1 s2 st.sm2 none),
     ⟨s1, s2, st.sm1, st.sm2⟩)
  else if type = 4 then -- Box In
    let s2 := { s2 with
      originX := (t2.w : ℚ) / 2, originY := (t2.h : ℚ) / 2
      posX := canvasW / 2, posY := canvasH / 2
      scaleX := canvasW / t2.w * p, scaleY := canvasH / t2.h * p }
    (drawTail type 0 (Op.sprite 0 s1 st.sm1 none) (Op.sprite 1 s2 st.sm2 none),
     ⟨s1, s2, st.sm1, st.sm2⟩)
  else if type = 5 then -- Box Out
    let s1 := { s1 with
      originX := (t1.w : ℚ) / 2, originY := (t1.h : ℚ) / 2
      posX := canvasW / 2, posY := canvasH / 2
      scaleX := canvasW / t1.w * (1 - p), scaleY := canvasH / t1.h * (1 - p) }
    (drawTail type 0 (Op.sprite 0 s1 st.sm1 none) (Op.sprite 1 s2 st.sm2 none),
     ⟨s1, s2, st.sm1, st.sm2⟩)
  else if type = 6 then -- Fade to Black
    if p ≤ 1/2 then
      let s1 := { s1 with red := 255, green := 255, blue := 255,
                          alpha := alphaByte (255 * (1 - p * 2)) }
      let s2 := { s2 with red := 255, green := 255, blue := 255, alpha := 0 }
      (drawTail type 0 (Op.sprite 0 s1 st.sm1 none) (Op.sprite 1 s2 st.sm2 none),
       ⟨s1, s2, st.sm1, st.sm2⟩)
    else
      let s1 := { s1 with red := 255, green := 255, blue := 255, alpha := 0 }
      let s2 := { s2 with red := 255, green := 255, blue := 255,
                          alpha := alphaByte (255 * ((p - 1/2) * 2)) }
      (drawTail type 0 (Op.sprite 0 s1 st.sm1 none) (Op.sprite 1 s2 st.sm2 none),
       ⟨s1, s2, st.sm1, st.sm2⟩)
  else if type = 7 then -- Cross-Fade
    let s2 := { s2 with red := 255, green := 255, blue := 255,
                        alpha := alphaByte (255 * p), posX := 0, posY := 0 }
    (drawTail type 0 (Op.sprite 0 s1 st.sm1 none) (Op.sprite 1 s2 st.sm2 none),
     ⟨s1, s2, st.sm1, st.sm2⟩)
  else if type = 8 then -- Page Turn Horizontal
    let s1 := { s1 with originX := (t1.w : ℚ) / 2, originY := (t1.h : ℚ) / 2
                        posX := canvasW / 2, posY := canvasH / 2 }
    let s2 := { s2 with originX := (t2.w : ℚ) / 2, originY := (t2.h : ℚ) / 2
                        posX := canvasW / 2, posY := canvasH / 2 }
    if p ≤ 1/2 then
      let s1 := { s1 with scaleX := canvasW / t1.w * (1 - p * 2), scaleY := canvasH / t1.h }
      (drawTail type 1 (Op.sprite 0 s1 st.sm1 none) (Op.sprite 1 s2 st.sm2 none),
       ⟨s1, s2, st.sm1, st.sm2⟩)
    else
      let s2 := { s2 with scaleX := canvasW / t2.w * ((p - 1/2) * 2), scaleY := canvasH / t2.h }
      (drawTail type 2 (Op.sprite 0 s1 st.sm1 none) (Op.sprite 1 s2 st.sm2 none),
       ⟨s1, s2, st.sm1, st.sm2⟩)
  else if type = 9 then -- Page Turn Vertical
    let s1 := { s1 with originX := (t1.w : ℚ) / 2, originY := (t1.h : ℚ) / 2
                        posX := canvasW / 2, posY := canvasH / 2 }
    let s2 := { s2 with originX := (t2.w : ℚ) / 2, originY := (t2.h : ℚ) / 2
                        posX := canvasW / 2, posY := canvasH / 2 }
    if p ≤ 1/2 then
      let s1 := { s1 with scaleX := canvasW / t1.w, scaleY := canvasH / t1.h * (1 - p * 2) }
      (drawTail type 1 (Op.sprite 0 s1 st.sm1 none) (Op.sprite 1 s2 st.sm2 none),
       ⟨s1, s2, st.sm1, st.sm2⟩)
    else
      let s2 := { s2 with scaleX := canvasW / t2.w, scaleY := canvasH / t2.h * ((p - 1/2) * 2) }
      (drawTail type 2 (Op.sprite 0 s1 st.sm1 none) (Op.sprite 1 s2 st.sm2 none),
       ⟨s1, s2, st.sm1, st.sm2⟩)
  else if type = 10 then -- Shutter Open
    let s1 := { s1 with originX := (t1.w : ℚ), originY := (t1.h : ℚ) / 2
                        posX := canvasW, posY := canvasH / 2
                        scaleX := canvasW / t1.w * (1 - p), scaleY := canvasH / t1.h }
    let s2 := { s2 with posX := -canvasW * (1 - p), posY := 0 }
    (drawTail type 0 (Op.sprite 0 s1 st.sm1 none) (Op.sprite 1 s2 st.sm2 none),
     ⟨s1, s2, st.sm1, st.sm2⟩)
  else if type = 11 then -- Blur Fade (no clear; early return)
    let radius := blurRadiusOf p
    if p ≤ 1/100 then
      ([Op.sprite 0 s1 st.sm1 none], ⟨s1, s2, st.sm1, st.sm2⟩)
    else if 99/100 ≤ p then
      ([Op.sprite 1 s2 st.sm2 none], ⟨s1, s2, st.sm1, st.sm2⟩)
    else if p < 9/20 then
      ([Op.sprite 0 s1 st.sm1 (some (Shader.blur radius))], ⟨s1, s2, st.sm1, st.sm2⟩)
    else if 11/20 < p then
      ([Op.sprite 1 s2 st.sm2 (some (Shader.blur radius))], ⟨s1, s2, st.sm1, st.sm2⟩)
    else
      let mix := (p - 9/20) * 10
      let s1 := { s1 with red := 255, green := 255, blue := 255,
                          alpha := alphaByte (255 * (1 - mix)) }
      let s2 := { s2 with red := 255, green := 255, blue := 255,
                          alpha := alphaByte (255 * mix) }
      ([Op.sprite 0 s1 st.sm1 (some (Shader.blur radius)),
        Op.sprite 1 s2 st.sm2 (some (Shader.blur radius))],
       ⟨s1, s2, st.sm1, st.sm2⟩)
  else if type = 12 then -- Cube Rotate: setSmooth(true) on both textures; clear; meshes
    ([Op.clear, Op.persp 12 p], ⟨s1, s2, true, true⟩)
  else if type = 13 then -- Ring: clear; two depth-sorted quads
    ([Op.clear, Op.persp 13 p], ⟨s1, s2, st.sm1, st.sm2⟩)
  else if type = 14 then -- Luma Wipe (no clear; early return)
    ([Op.sprite 0 s1 st.sm1 none, Op.sprite 1 s2 st.sm2 (some (Shader.luma p))],
     ⟨s1, s2, st.sm1, st.sm2⟩)
  else if type = 15 then -- Fly Away (clears inside each phase)
    if p ≤ 1/2 then
      let s1 := { s1 with
        originX := (t1.w : ℚ) / 2, originY := (t1.h : ℚ) / 2
        posX := canvasW / 2, posY := canvasH / 2
        scaleX := canvasW / t1.w * (1 - p * 2), scaleY := canvasH / t1.h * (1 - p * 2)
        rot := p * 2 * 180
        red := 255, green := 255, blue := 255, alpha := alphaByte (255 * (1 - p * 2)) }
      ([Op.clear, Op.sprite 0 s1 st.sm1 none], ⟨s1, s2, st.sm1, st.sm2⟩)
    else
      let s2 := { s2 with
        originX := (t2.w : ℚ) / 2, originY := (t2.h : ℚ) / 2
        posX := canvasW / 2, posY := canvasH / 2
        scaleX := canvasW / t2.w * ((p - 1/2) * 2), scaleY := canvasH / t2.h * ((p - 1/2) * 2)
        rot := (1 - (p - 1/2) * 2) * (-180)
        red := 255, green := 255, blue := 255, alpha := alphaByte (255 * ((p - 1/2) * 2)) }
      ([Op.clear, Op.sprite 1 s2 st.sm2 none], ⟨s1, s2, st.sm1, st.sm2⟩)
  else -- no case matched: fall through to the common drawing section
    (drawTail type 0 (Op.sprite 0 s1 st.sm1 none) (Op.sprite 1 s2 st.sm2 none),
     ⟨s1, s2, st.sm1, st.sm2⟩)

/-! ## Frame abstraction

A conservative, computable abstraction of what a list of draw operations
shows.  A draw with zero scale, zero alpha, a fully off-canvas axis-aligned
rectangle, or a luma shader at `progress ≤ 0` contributes no visible pixel
(the last fact is justified against the pixel model by
`lumaShaderPixel_alpha_zero` below); a plain white, fully opaque,
unrotated draw whose rectangle coincides exactly with the canvas shows the
whole texture, canvas-fitted.  Anything else makes the frame `unknown`. -/

/-- Left edge of the axis-aligned sprite rectangle (rotation 0). -/
def rectLeft (s : SpriteState) : ℚ := s.posX - s.originX * s.scaleX

/-- Top edge of the axis-aligned sprite rectangle (rotation 0). -/
def rectTop (s : SpriteState) : ℚ := s.posY - s.originY * s.scaleY

/-- Right edge of the axis-aligned sprite rectangle (rotation 0). -/
def rectRight (t : Tex) (s : SpriteState) : ℚ := rectLeft s + t.w * s.scaleX

/-- Bottom edge of the axis-aligned sprite rectangle (rotation 0). -/
def rectBottom (t : Tex) (s : SpriteState) : ℚ := rectTop s + t.h * s.scaleY

/-- A shader that outputs alpha 0 for every valid input pixel: the luma
shader with `progress ≤ 0` (its threshold is then `≥ 1`, at or above every
luma). -/
def shaderKillsAll : Option Shader → Bool
  | some (Shader.luma q) => decide (q ≤ 0)
  | _ => false

/-- The draw operation contributes no visible pixel. -/
def spriteInvisible (t : Tex) (s : SpriteState) (sh : Option Shader) : Prop :=
  s.alpha = 0 ∨ s.scaleX = 0 ∨ s.scaleY = 0 ∨
    (s.rot = 0 ∧ (rectRight t s ≤ 0 ∨ canvasW ≤ rectLeft s ∨
                  rectBottom t s ≤ 0 ∨ canvasH ≤ rectTop s)) ∨
    shaderKillsAll sh = true

/-- The draw paints the whole texture, unshaded and fully opaque, exactly
over the whole canvas. -/
def fullCover (t : Tex) (s : SpriteState) (sh : Option Shader) : Prop :=
  sh = none ∧ s.red = 255 ∧ s.green = 255 ∧ s.blue = 255 ∧ s.alpha = 255 ∧
    s.rot = 0 ∧ 0 ≤ s.scaleX ∧ 0 ≤ s.scaleY ∧
    rectLeft s = 0 ∧ rectTop s = 0 ∧
    rectRight t s = canvasW ∧ rectBottom t s = canvasH

instance (t : Tex) (s : SpriteState) (sh : Option Shader) :
    Decidable (spriteInvisible t s sh) := by
  unfold spriteInvisible; exact inferInstance

instance (t : Tex) (s : SpriteState) (sh : Option Shader) :
    Decidable (fullCover t s sh) := by
  unfold fullCover; exact inferInstance

/-- What the canvas provably shows after a list of operations. -/
inductive FrameD where
  | unknown
  | blackF
  | fullImage (img : Fin 2)
deriving DecidableEq, Repr

/-- Effect of one operation on the frame abstraction. -/
def stepF (t1 t2 : Tex) (d : FrameD) (op : Op) : FrameD :=
  match op with
  | Op.clear => FrameD.blackF
  | Op.persp _ _ => FrameD.unknown
  | Op.sprite i s _ sh =>
      let t := if i = 0 then t1 else t2
      if spriteInvisible t s sh then d
      else if fullCover t s sh then FrameD.fullImage i
      else FrameD.unknown

/-- Frame abstraction of a whole operation list. -/
def frameOf (t1 t2 : Tex) (ops : List Op) : FrameD :=
  ops.foldl (stepF t1 t2) FrameD.unknown

/-! ## Per-pixel model of the luma-wipe shader (`lumaShaderCode`)

Colours are normalised: each channel lies in `[0,1]`, as in GLSL. -/

/-- A normalised RGBA colour. -/
structure Color where
  r : ℚ
  g : ℚ
  b : ℚ
  a : ℚ
deriving DecidableEq, Repr

/-- All channels within `[0,1]`. -/
def Color.valid (c : Color) : Prop :=
  0 ≤ c.r ∧ c.r ≤ 1 ∧ 0 ≤ c.g ∧ c.g ≤ 1 ∧ 0 ≤ c.b ∧ c.b ≤ 1 ∧ 0 ≤ c.a ∧ c.a ≤ 1

/-- `dot(pixel.rgb, vec3(0.299, 0.587, 0.114))`. -/
def lumaOf (c : Color) : ℚ := 299/1000 * c.r + 587/1000 * c.g + 114/1000 * c.b

/-- GLSL `clamp(x, 0.0, 1.0)`. -/
def clamp01 (x : ℚ) : ℚ := max 0 (min 1 x)

/-- GLSL `smoothstep(e0, e1, x)` for `e0 < e1`. -/
def smoothstep (e0 e1 x : ℚ) : ℚ :=
  let t := clamp01 ((x - e0) / (e1 - e0))
  t * t * (3 - 2 * t)

/-- The luma-wipe fragment shader applied to one pixel of image B:
threshold `1 - progress`, `alpha = smoothstep(threshold, threshold + 0.1,
luma)`, output `vec4(pixel.rgb, pixel.a * alpha)`. -/
def lumaShaderPixel (p : ℚ) (c : Color) : Color :=
  let threshold := 1 - p
  let alpha := smoothstep threshold (threshold + 1/10) (lumaOf c)
  ⟨c.r, c.g, c.b, c.a * alpha⟩

/-- SFML default alpha blending (`BlendAlpha`, non-premultiplied):
`out.rgb = src.rgb·src.a + dst.rgb·(1−src.a)`,
`out.a = src.a + dst.a·(1−src.a)`. -/
def blendOver (src dst : Color) : Color :=
  ⟨src.r * src.a + dst.r * (1 - src.a),
   src.g * src.a + dst.g * (1 - src.a),
   src.b * src.a + dst.b * (1 - src.a),
   src.a + dst.a * (1 - src.a)⟩

/-- One output pixel of case 14 (Luma Wipe): image A is drawn plain over
the previous canvas content (there is no clear), then the aligned pixel of
image B is drawn through the luma shader. -/
def lumaWipePixel (p : ℚ) (pixA pixB prev : Color) : Color :=
  blendOver (lumaShaderPixel p pixB) (blendOver pixA prev)

/-! ## Blur-fade schedule claimed by the spec (refinement comparison)

`specBlurRadius` follows the words of the specification, for comparison
with the code's `blurRadiusOf`: radius ramps linearly from 0 to the
maximum over progress in `[0, 0.45]`, holds at the maximum over
`(0.45, 0.55)`, and ramps back to 0 over `[0.55, 1]`. -/

/-- The radius schedule as the spec describes it (maximum 150). -/
def specBlurRadius (p : ℚ) : ℚ :=
  if p ≤ 9/20 then 150 * (p / (9/20))
  else if p < 11/20 then 150
  else 150 * ((1 - p) / (9/20))

/-! ## Canvas semantics for overwrite/leakage questions

The canvas is a pixel map.  `applyOps` interprets an operation list over a
previous canvas: `clear` paints every pixel black (`sf::Color::Black`,
opaque); any other operation is interpreted by a draw semantics `dS` that
maps the current canvas to the next one.  Keeping `dS` abstract makes the
overwrite theorems hold for every rasteriser. -/

/-- `sf::Color::Black`: opaque black. -/
def blackColor : Color := ⟨0, 0, 0, 1⟩

/-- The output canvas: a colour per pixel coordinate. -/
def Canvas : Type := ℕ × ℕ → Color

/-- Interpret an operation list over a previous canvas. -/
def applyOps (dS : Op → Canvas → Canvas) (ops : List Op) (c : Canvas) : Canvas :=
  ops.foldl
    (fun acc op =>
      match op with
      | Op.clear => fun _ => blackColor
      | o => dS o acc) c

/-! ## Per-pixel model of the blur shader (`blurShaderCode`)

One colour channel suffices (the shader treats channels independently and
`gl_Color` is white in the branches that blur a single image).  The
texture is a channel value at a normalised coordinate; the 17×17 sample
loop uses Gaussian weights `exp(-(x²+y²)/40)` at offsets `(x, y)·spread`
with `spread = blurRadius · 0.00005`, and the radius test
`blurRadius < 0.001` short-circuits to the unmodified pixel. -/

/-- `float spread = blurRadius * 0.00005`. -/
def spreadOf (radius : ℚ) : ℚ := radius * 5 / 100000

/-- Gaussian sample weight `exp(-(x*x + y*y) / 40.0)`. -/
noncomputable def blurWeight (x y : ℤ) : ℝ :=
  Real.exp (-((x : ℝ) ^ 2 + (y : ℝ) ^ 2) / 40)

/-- One channel of the blur fragment shader at one fragment coordinate. -/
noncomputable def blurChan (tex : ℚ × ℚ → ℚ) (radius : ℚ) (c : ℚ × ℚ) : ℝ :=
  if radius < 1/1000 then (tex c : ℝ)
  else
    (∑ x ∈ Finset.Icc (-8 : ℤ) 8, ∑ y ∈ Finset.Icc (-8 : ℤ) 8,
        blurWeight x y *
          (tex (c.1 + x * spreadOf radius, c.2 + y * spreadOf radius) : ℝ)) /
    (∑ x ∈ Finset.Icc (-8 : ℤ) 8, ∑ y ∈ Finset.Icc (-8 : ℤ) 8, blurWeight x y)

/-- A one-channel step texture: 0 strictly left of the origin, 1 at and
right of it. -/
def stepTex : ℚ × ℚ → ℚ := fun c => if c.1 < 0 then 0 else 1

/-! ## Perspective models: Cube Rotate (case 12) and Ring (case 13)

These use real `cos`/`sin`, so they live in a dedicated real-valued model;
`Op.persp` in `renderCall` stands for the mesh draws described here. -/

/-- The code's quarter-turn constant `1.5707963f` (radians; the float
literal used for 90°). -/
noncomputable def quarterTurn : ℝ := 15707963 / 10000000

/-- Front-face width: texture width times the canvas-fit scale
(`t1.getSize().x * scale1.x`). -/
def faceW (t1 : Tex) : ℚ := t1.w * (canvasW / t1.w)

/-- Cube depth: the second texture's width times its canvas-fit scale. -/
def cubeDepth (t2 : Tex) : ℚ := t2.w * (canvasW / t2.w)

/-- `halfD = cubeDepth / 2`. -/
def halfD (t2 : Tex) : ℚ := cubeDepth t2 / 2

/-- `angle = progress * 1.5707963f`. -/
noncomputable def cubeAngle (p : ℚ) : ℝ := p * quarterTurn

/-- A 3D point. -/
structure V3 where
  x : ℝ
  y : ℝ
  z : ℝ

/-- The `transformPoint` lambda of case 12: translate by `-halfD` in z,
rotate about the Y axis, translate back. -/
noncomputable def transformPoint (hD angle : ℝ) (v : V3) : V3 :=
  let pz := v.z - hD
  ⟨v.x * Real.cos angle + pz * Real.sin angle, v.y,
   -v.x * Real.sin angle + pz * Real.cos angle + hD⟩

/-- Transformed z of the front face's representative point `(0,0,0)`. -/
noncomputable def zFront (t2 : Tex) (p : ℚ) : ℝ :=
  (transformPoint ((halfD t2 : ℚ) : ℝ) (cubeAngle p) ⟨0, 0, 0⟩).z

/-- Transformed z of the side face's representative point
`(faceW/2, 0, cubeDepth/2)`. -/
noncomputable def zSide (t1 t2 : Tex) (p : ℚ) : ℝ :=
  (transformPoint ((halfD t2 : ℚ) : ℝ) (cubeAngle p)
    ⟨((faceW t1 : ℚ) : ℝ) / 2, 0, ((cubeDepth t2 : ℚ) : ℝ) / 2⟩).z

open Classical in
/-- Case 12 draw order: front face (texture A, index 0) first when its
representative z is greater (`tf.z > ts.z`), else side face first. -/
noncomputable def cubeOrder (t1 t2 : Tex) (p : ℚ) : List (Fin 2) :=
  if zSide t1 t2 p < zFront t2 p then [0, 1] else [1, 0]

/-- The progress at which the two faces' representative z agree. -/
noncomputable def flipPoint : ℝ := Real.pi / (4 * quarterTurn)

/-- Ring orbit radius (`float radius = 1000.f`). -/
noncomputable def ringRadius : ℝ := 1000

/-- Ring perspective constant (`float depth = 670.f`). -/
noncomputable def ringDepthC : ℝ := 670

/-- Image A's ring angle: `progress * 1.5707963f`. -/
noncomputable def ringAngleA (p : ℚ) : ℝ := p * quarterTurn

/-- Image B's ring angle: `(1 - progress) * 1.5707963f`. -/
noncomputable def ringAngleB (p : ℚ) : ℝ := (1 - p) * quarterTurn

/-- `x = sideSign * (radius - cos(angle) * radius)`. -/
noncomputable def ringX (angle side : ℝ) : ℝ :=
  side * (ringRadius - Real.cos angle * ringRadius)

/-- `z = sin(angle) * radius`. -/
noncomputable def ringZ (angle : ℝ) : ℝ := Real.sin angle * ringRadius

/-- `s = depth / (depth + z)`. -/
noncomputable def ringS (angle : ℝ) : ℝ := ringDepthC / (ringDepthC + ringZ angle)

/-- An axis-aligned textured quad on the canvas. -/
structure Quad where
  left : ℝ
  top : ℝ
  width : ℝ
  height : ℝ

/-- The ring quad for one image: size is the canvas size times the
perspective scale, centered at `(cx + x, cy)`. -/
noncomputable def ringQuad (angle side : ℝ) : Quad :=
  let s := ringS angle
  let w := ((canvasW : ℚ) : ℝ) * s
  let h := ((canvasH : ℚ) : ℝ) * s
  ⟨((canvasW : ℚ) : ℝ) / 2 + ringX angle side - w / 2,
   ((canvasH : ℚ) : ℝ) / 2 - h / 2, w, h⟩

open Classical in
/-- Case 13 draw order: quad 1 (image A, index 0) first when `z1 > z2`,
else quad 2 first. -/
noncomputable def ringOrder (p : ℚ) : List (Fin 2) :=
  if ringZ (ringAngleB p) < ringZ (ringAngleA p) then [0, 1] else [1, 0]

/-- The smoothing flag a draw operation samples its texture with (`none`
for operations that are not sprite draws). -/
def opSmooth : Op → Option Bool
  | Op.sprite _ _ sm _ => some sm
  | _ => none

/-! ## The export loop of `main` (lines 855–900) -/

/-- The two sequential clamps applied to `framesCount` by the UI code:
`if (framesCount < 10) framesCount = 10; if (framesCount > 1000)
framesCount = 1000;`. -/
def clampFrames (n : ℤ) : ℤ :=
  if n < 10 then 10 else if 1000 < n then 1000 else n

/-- The progress of export frame `i`: `(float)i / (float)framesCount`. -/
def exportProgress (f i : ℕ) : ℚ := (i : ℚ) / (f : ℚ)

/-- Progress samples of the export loop: `i / framesCount` for
`i = 0 .. framesCount`. -/
def exportProgressList (f : ℕ) : List ℚ :=
  (List.range (f + 1)).map (exportProgress f)

/-- The full export sequence for a requested frame count `n`. -/
def exportSeq (n : ℤ) : List ℚ := exportProgressList (clampFrames n).toNat

/-- Justification of the `shaderKillsAll` rule of the frame abstraction:
at `progress ≤ 0` the luma shader outputs alpha `0` on every valid pixel. -/
theorem lumaShaderPixel_alpha_zero (p : ℚ) (hp : p ≤ 0) (c : Color)
    (hc : c.valid) : (lumaShaderPixel p c).a = 0 := by
  obtain ⟨h1, h2, h3, h4, h5, h6, _, _⟩ := hc
  have hluma : lumaOf c ≤ 1 := by unfold lumaOf; linarith
  have hth : (1 : ℚ) ≤ 1 - p := by linarith
  unfold lumaShaderPixel smoothstep clamp01
  have hnum : lumaOf c - (1 - p) ≤ 0 := by linarith
  have hden : (0 : ℚ) < (1 - p + 1/10) - (1 - p) := by norm_num
  have hq : (lumaOf c - (1 - p)) / ((1 - p + 1/10) - (1 - p)) ≤ 0 :=
    div_nonpos_of_nonpos_of_nonneg hnum (le_of_lt hden)
  have hmin : min 1 ((lumaOf c - (1 - p)) / ((1 - p + 1/10) - (1 - p))) ≤ 0 :=
    le_trans (min_le_right _ _) hq
  have hmax : max 0 (min 1 ((lumaOf c - (1 - p)) / ((1 - p + 1/10) - (1 - p)))) = 0 :=
    max_eq_left hmin
  simp only [hmax, mul_zero, zero_mul]

/-! ## Helper lemmas for evaluating the frame abstraction -/

theorem stepF_clear (t1 t2 : Tex) (d : FrameD) :
    stepF t1 t2 d Op.clear = FrameD.blackF := rfl

theorem stepF_invisible {t1 t2 : Tex} {i : Fin 2} {s : SpriteState}
    {sm : Bool} {sh : Option Shader} (d : FrameD)
    (h : spriteInvisible (if i = 0 then t1 else t2) s sh) :
    stepF t1 t2 d (Op.sprite i s sm sh) = d := by
  simp only [stepF, if_pos h]

theorem stepF_cover {t1 t2 : Tex} {i : Fin 2} {s : SpriteState}
    {sm : Bool} {sh : Option Shader} (d : FrameD)
    (hn : ¬ spriteInvisible (if i = 0 then t1 else t2) s sh)
    (hc : fullCover (if i = 0 then t1 else t2) s sh) :
    stepF t1 t2 d (Op.sprite i s sm sh) = FrameD.fullImage i := by
  simp only [stepF, if_neg hn, if_pos hc]

theorem resetSprite_fullCover (t : Tex) (hw : t.w ≠ 0) (hh : t.h ≠ 0) :
    fullCover t (resetSprite t) none := by
  have hw' : (t.w : ℚ) ≠ 0 := Nat.cast_ne_zero.mpr hw
  have hh' : (t.h : ℚ) ≠ 0 := Nat.cast_ne_zero.mpr hh
  refine ⟨rfl, rfl, rfl, rfl, rfl, rfl, ?_, ?_, ?_, ?_, ?_, ?_⟩ <;>
    simp [resetSprite, rectLeft, rectTop, rectRight, rectBottom, canvasW, canvasH] <;>
    first
      | positivity
      | field_simp

theorem fullCover_not_invisible {t : Tex} {s : SpriteState}
    (hc : fullCover t s none) : ¬ spriteInvisible t s none := by
  obtain ⟨-, -, -, -, ha, hrot, hsx, hsy, hl, ht, hr, hb⟩ := hc
  intro h
  rcases h with h | h | h | ⟨-, h⟩ | h
  · exact absurd (ha ▸ h) (by norm_num)
  · rw [rectRight, hl, h] at hr
    simp [canvasW] at hr
  · rw [rectBottom, ht, h] at hb
    simp [canvasH] at hb
  · rcases h with h | h | h | h
    · rw [hr] at h; norm_num [canvasW] at h
    · rw [hl] at h; norm_num [canvasW] at h
    · rw [hb] at h; norm_num [canvasH] at h
    · rw [ht] at h; norm_num [canvasH] at h
  · simp [shaderKillsAll] at h

theorem invisible_of_alpha {t : Tex} {s : SpriteState} {sh : Option Shader}
    (h : s.alpha = 0) : spriteInvisible t s sh := Or.inl h

theorem invisible_of_scaleX {t : Tex} {s : SpriteState} {sh : Option Shader}
    (h : s.scaleX = 0) : spriteInvisible t s sh := Or.inr (Or.inl h)

theorem invisible_of_scaleY {t : Tex} {s : SpriteState} {sh : Option Shader}
    (h : s.scaleY = 0) : spriteInvisible t s sh := Or.inr (Or.inr (Or.inl h))

theorem invisible_of_offcanvas {t : Tex} {s : SpriteState} {sh : Option Shader}
    (hrot : s.rot = 0)
    (h : rectRight t s ≤ 0 ∨ canvasW ≤ rectLeft s ∨
         rectBottom t s ≤ 0 ∨ canvasH ≤ rectTop s) :
    spriteInvisible t s sh := Or.inr (Or.inr (Or.inr (Or.inl ⟨hrot, h⟩)))

theorem invisible_of_luma {t : Tex} {s : SpriteState} {q : ℚ} (hq : q ≤ 0) :
    spriteInvisible t s (some (Shader.luma q)) :=
  Or.inr (Or.inr (Or.inr (Or.inr (by simp [shaderKillsAll, hq]))))

theorem stepF_invisible0 {t1 t2 : Tex} {s : SpriteState} {sm : Bool}
    {sh : Option Shader} (d : FrameD) (h : spriteInvisible t1 s sh) :
    stepF t1 t2 d (Op.sprite 0 s sm sh) = d := stepF_invisible d h

theorem stepF_invisible1 {t1 t2 : Tex} {s : SpriteState} {sm : Bool}
    {sh : Option Shader} (d : FrameD) (h : spriteInvisible t2 s sh) :
    stepF t1 t2 d (Op.sprite 1 s sm sh) = d := stepF_invisible d h

theorem stepF_cover0 {t1 t2 : Tex} {s : SpriteState} {sm : Bool} (d : FrameD)
    (hc : fullCover t1 s none) :
    stepF t1 t2 d (Op.sprite 0 s sm none) = FrameD.fullImage 0 :=
  stepF_cover d (fullCover_not_invisible hc) hc

theorem stepF_cover1 {t1 t2 : Tex} {s : SpriteState} {sm : Bool} (d : FrameD)
    (hc : fullCover t2 s none) :
    stepF t1 t2 d (Op.sprite 1 s sm none) = FrameD.fullImage 1 :=
  stepF_cover d (fullCover_not_invisible hc) hc

/-! Shape lemmas: frame abstraction of the small operation lists the
renderer actually produces. -/

theorem frameOf_clear_cover0_inv1 {t1 t2 : Tex} {A B : SpriteState}
    {smA smB : Bool} {shB : Option Shader}
    (hc : fullCover t1 A none) (hinv : spriteInvisible t2 B shB) :
    frameOf t1 t2 [Op.clear, Op.sprite 0 A smA none, Op.sprite 1 B smB shB] =
      FrameD.fullImage 0 := by
  unfold frameOf
  simp only [List.foldl, stepF_clear, stepF_cover0 _ hc, stepF_invisible1 _ hinv]

theorem frameOf_clear_any0_cover1 {t1 t2 : Tex} {A B : SpriteState}
    {smA smB : Bool} {shA : Option Shader}
    (hc : fullCover t2 B none) :
    frameOf t1 t2 [Op.clear, Op.sprite 0 A smA shA, Op.sprite 1 B smB none] =
      FrameD.fullImage 1 := by
  unfold frameOf
  simp only [List.foldl, stepF_clear, stepF_cover1 _ hc]

theorem frameOf_clear_cover1_inv0 {t1 t2 : Tex} {A B : SpriteState}
    {smA smB : Bool} {shA : Option Shader}
    (hc : fullCover t2 B none) (hinv : spriteInvisible t1 A shA) :
    frameOf t1 t2 [Op.clear, Op.sprite 1 B smB none, Op.sprite 0 A smA shA] =
      FrameD.fullImage 1 := by
  unfold frameOf
  simp only [List.foldl, stepF_clear, stepF_cover1 _ hc, stepF_invisible0 _ hinv]

theorem frameOf_clear_any1_cover0 {t1 t2 : Tex} {A B : SpriteState}
    {smA smB : Bool} {shB : Option Shader}
    (hc : fullCover t1 A none) :
    frameOf t1 t2 [Op.clear, Op.sprite 1 B smB shB, Op.sprite 0 A smA none] =
      FrameD.fullImage 0 := by
  unfold frameOf
  simp only [List.foldl, stepF_clear, stepF_cover0 _ hc]

theorem frameOf_clear_cover0 {t1 t2 : Tex} {A : SpriteState} {smA : Bool}
    (hc : fullCover t1 A none) :
    frameOf t1 t2 [Op.clear, Op.sprite 0 A smA none] = FrameD.fullImage 0 := by
  unfold frameOf
  simp only [List.foldl, stepF_clear, stepF_cover0 _ hc]

theorem frameOf_clear_cover1 {t1 t2 : Tex} {B : SpriteState} {smB : Bool}
    (hc : fullCover t2 B none) :
    frameOf t1 t2 [Op.clear, Op.sprite 1 B smB none] = FrameD.fullImage 1 := by
  unfold frameOf
  simp only [List.foldl, stepF_clear, stepF_cover1 _ hc]

theorem frameOf_cover0 {t1 t2 : Tex} {A : SpriteState} {smA : Bool}
    (hc : fullCover t1 A none) :
    frameOf t1 t2 [Op.sprite 0 A smA none] = FrameD.fullImage 0 := by
  unfold frameOf
  simp only [List.foldl, stepF_cover0 _ hc]

theorem frameOf_cover1 {t1 t2 : Tex} {B : SpriteState} {smB : Bool}
    (hc : fullCover t2 B none) :
    frameOf t1 t2 [Op.sprite 1 B smB none] = FrameD.fullImage 1 := by
  unfold frameOf
  simp only [List.foldl, stepF_cover1 _ hc]

theorem frameOf_cover0_inv1 {t1 t2 : Tex} {A B : SpriteState}
    {smA smB : Bool} {shB : Option Shader}
    (hc : fullCover t1 A none) (hinv : spriteInvisible t2 B shB) :
    frameOf t1 t2 [Op.sprite 0 A smA none, Op.sprite 1 B smB shB] =
      FrameD.fullImage 0 := by
  unfold frameOf
  simp only [List.foldl, stepF_cover0 _ hc, stepF_invisible1 _ hinv]

theorem natCast_mul_div {w : ℕ} (hw : w ≠ 0) (c : ℚ) : (w : ℚ) * (c / w) = c := by
  rw [mul_comm]
  exact div_mul_cancel₀ c (Nat.cast_ne_zero.mpr hw)

theorem alphaByte_255 : alphaByte 255 = 255 := by with_unfolding_all rfl

theorem alphaByte_zero : alphaByte 0 = 0 := by with_unfolding_all rfl

/-- The canvas-fitted reset state covers the canvas exactly. -/
theorem fullCover_base (t : Tex) (hw : t.w ≠ 0) (hh : t.h ≠ 0) :
    fullCover t ⟨255, 255, 255, 255, 0, 0, 0, 0, canvasW / t.w, canvasH / t.h, 0⟩
      none := resetSprite_fullCover t hw hh

/-- A canvas-fitted sprite with centered origin placed at the canvas
center covers the canvas exactly. -/
theorem fullCover_centered (t : Tex) (hw : t.w ≠ 0) (hh : t.h ≠ 0) :
    fullCover t ⟨255, 255, 255, 255, (t.w : ℚ) / 2, (t.h : ℚ) / 2,
      canvasW / 2, canvasH / 2, canvasW / t.w, canvasH / t.h, 0⟩ none := by
  have hw' : (t.w : ℚ) ≠ 0 := Nat.cast_ne_zero.mpr hw
  have hh' : (t.h : ℚ) ≠ 0 := Nat.cast_ne_zero.mpr hh
  refine ⟨rfl, rfl, rfl, rfl, rfl, rfl, ?_, ?_, ?_, ?_, ?_, ?_⟩ <;>
    simp [rectLeft, rectTop, rectRight, rectBottom, canvasW, canvasH] <;>
    first
      | positivity
      | (field_simp; try ring)

/-- The shutter sprite (origin on the right edge, placed at the right
canvas edge, full scale) covers the canvas exactly. -/
theorem fullCover_shutter (t : Tex) (hw : t.w ≠ 0) (hh : t.h ≠ 0) :
    fullCover t ⟨255, 255, 255, 255, (t.w : ℚ), (t.h : ℚ) / 2,
      canvasW, canvasH / 2, canvasW / t.w, canvasH / t.h, 0⟩ none := by
  have hw' : (t.w : ℚ) ≠ 0 := Nat.cast_ne_zero.mpr hw
  have hh' : (t.h : ℚ) ≠ 0 := Nat.cast_ne_zero.mpr hh
  refine ⟨rfl, rfl, rfl, rfl, rfl, rfl, ?_, ?_, ?_, ?_, ?_, ?_⟩ <;>
    simp [rectLeft, rectTop, rectRight, rectBottom, canvasW, canvasH] <;>
    first
      | positivity
      | (field_simp; try ring)

/-! ## Behaviour of the luma-wipe pixel pipeline -/

theorem smoothstep_hi {e0 e1 x : ℚ} (hlt : e0 < e1) (h : e1 ≤ x) :
    smoothstep e0 e1 x = 1 := by
  unfold smoothstep clamp01
  have hd : 0 < e1 - e0 := by linarith
  have hr : 1 ≤ (x - e0) / (e1 - e0) := (le_div_iff₀ hd).mpr (by linarith)
  rw [min_eq_left hr, max_eq_right zero_le_one]
  norm_num

theorem smoothstep_lo {e0 e1 x : ℚ} (hlt : e0 < e1) (h : x ≤ e0) :
    smoothstep e0 e1 x = 0 := by
  unfold smoothstep clamp01
  have hd : 0 < e1 - e0 := by linarith
  have hr : (x - e0) / (e1 - e0) ≤ 0 :=
    div_nonpos_of_nonpos_of_nonneg (by linarith) (le_of_lt hd)
  rw [min_eq_right (le_trans hr zero_le_one), max_eq_left hr]
  norm_num

/-- Where B's luma is at least `threshold + 0.1`, the luma-wipe output
pixel is exactly B's pixel (opaque). -/
theorem lumaWipe_from_B {p : ℚ} {pa pb prev : Color} (hb : pb.a = 1)
    (h : (1 - p) + 1/10 ≤ lumaOf pb) :
    lumaWipePixel p pa pb prev = ⟨pb.r, pb.g, pb.b, 1⟩ := by
  simp only [lumaWipePixel, lumaShaderPixel]
  rw [smoothstep_hi (by norm_num) h, hb]
  unfold blendOver
  norm_num

/-- Where B's luma is at most `threshold`, the luma-wipe output pixel is
exactly A's pixel (for an opaque A). -/
theorem lumaWipe_from_A {p : ℚ} {pa pb prev : Color} (ha : pa.a = 1)
    (h : lumaOf pb ≤ 1 - p) :
    lumaWipePixel p pa pb prev = pa := by
  simp only [lumaWipePixel, lumaShaderPixel]
  rw [smoothstep_lo (by norm_num) h]
  unfold blendOver
  simp only [mul_zero, zero_mul, zero_add, sub_zero, one_mul, ha, mul_one]
  norm_num
  rw [show pa = ⟨pa.r, pa.g, pa.b, pa.a⟩ from rfl, ha]

/-- The luma-wipe output pixel is always opaque when A is opaque. -/
theorem lumaWipe_opaque (p : ℚ) {pa : Color} (pb prev : Color)
    (ha : pa.a = 1) : (lumaWipePixel p pa pb prev).a = 1 := by
  simp only [lumaWipePixel, lumaShaderPixel, blendOver, ha]
  ring

/-! ## Claim C1 -/

/-- C1 (amended).  For every non-perspective transition kind other than
Luma Wipe, and all non-empty images, the frame at progress 0 is exactly
image A canvas-fitted and the frame at progress 1 is exactly image B
canvas-fitted; Luma Wipe still shows exactly image A at progress 0, but at
progress 1 a pixel of B is reproduced only where B's luma is at least 0.1
(the shader's smoothstep soft-edge width above the threshold `1-progress`),
and where B's luma is 0 the output pixel remains A's pixel. -/
theorem c1_endpoints_amended :
    (∀ k ∈ ([0, 1, 2, 3, 4, 5, 6, 7, 8, 9, 10, 11, 15] : List ℕ),
      ∀ t1 t2 : Tex, ∀ st : RState,
      t1.w ≠ 0 → t1.h ≠ 0 → t2.w ≠ 0 → t2.h ≠ 0 →
      frameOf t1 t2 (renderCall k 0 t1 t2 st).1 = FrameD.fullImage 0 ∧
      frameOf t1 t2 (renderCall k 1 t1 t2 st).1 = FrameD.fullImage 1) ∧
    (∀ t1 t2 : Tex, ∀ st : RState,
      t1.w ≠ 0 → t1.h ≠ 0 → t2.w ≠ 0 → t2.h ≠ 0 →
      frameOf t1 t2 (renderCall 14 0 t1 t2 st).1 = FrameD.fullImage 0) ∧
    (∀ pa pb prev : Color, pa.a = 1 → pb.a = 1 →
      (1/10 ≤ lumaOf pb → lumaWipePixel 1 pa pb prev = ⟨pb.r, pb.g, pb.b, 1⟩) ∧
      (lumaOf pb ≤ 0 → lumaWipePixel 1 pa pb prev = pa)) := by
  refine ⟨?_, ?_, ?_⟩
  · intro k hk t1 t2 st h1w h1h h2w h2h
    have c1 : fullCover t1 (resetSprite t1) none := resetSprite_fullCover t1 h1w h1h
    have c2 : fullCover t2 (resetSprite t2) none := resetSprite_fullCover t2 h2w h2h
    have cc1 := fullCover_centered t1 h1w h1h
    have cc2 := fullCover_centered t2 h2w h2h
    fin_cases hk
    · -- Slide Left
      constructor
      · norm_num [renderCall, drawTail, h1w, h2w, Nat.pos_of_ne_zero]
        apply frameOf_clear_cover0_inv1 c1
        apply invisible_of_offcanvas rfl
        left
        simp [rectRight, rectLeft, resetSprite, natCast_mul_div h2w]
      · norm_num [renderCall, drawTail, h1w, h2w, Nat.pos_of_ne_zero]
        exact frameOf_clear_any0_cover1 c2
    · -- Slide Right
      constructor
      · norm_num [renderCall, drawTail, h1w, h2w, Nat.pos_of_ne_zero]
        apply frameOf_clear_cover0_inv1 c1
        apply invisible_of_offcanvas rfl
        right; left
        simp [rectLeft, resetSprite, canvasW]
      · norm_num [renderCall, drawTail, h1w, h2w, Nat.pos_of_ne_zero]
        exact frameOf_clear_any0_cover1 c2
    · -- Slide Top
      constructor
      · norm_num [renderCall, drawTail, h1w, h2w, Nat.pos_of_ne_zero]
        apply frameOf_clear_cover0_inv1 c1
        apply invisible_of_offcanvas rfl
        right; right; left
        simp [rectBottom, rectTop, resetSprite, natCast_mul_div h2h]
      · norm_num [renderCall, drawTail, h1w, h2w, Nat.pos_of_ne_zero]
        exact frameOf_clear_any0_cover1 c2
    · -- Slide Bottom
      constructor
      · norm_num [renderCall, drawTail, h1w, h2w, Nat.pos_of_ne_zero]
        apply frameOf_clear_cover0_inv1 c1
        apply invisible_of_offcanvas rfl
        right; right; right
        simp [rectTop, resetSprite, canvasH]
      · norm_num [renderCall, drawTail, h1w, h2w, Nat.pos_of_ne_zero]
        exact frameOf_clear_any0_cover1 c2
    · -- Box In
      constructor
      · norm_num [renderCall, drawTail, h1w, h2w, Nat.pos_of_ne_zero]
        apply frameOf_clear_cover0_inv1 c1
        exact invisible_of_scaleX rfl
      · norm_num [renderCall, drawTail, h1w, h2w, Nat.pos_of_ne_zero]
        exact frameOf_clear_any0_cover1 cc2
    · -- Box Out
      constructor
      · norm_num [renderCall, drawTail, h1w, h2w, Nat.pos_of_ne_zero]
        exact frameOf_clear_any1_cover0 cc1
      · norm_num [renderCall, drawTail, h1w, h2w, Nat.pos_of_ne_zero]
        apply frameOf_clear_cover1_inv0 c2
        exact invisible_of_scaleX rfl
    · -- Fade to Black
      constructor
      · norm_num [renderCall, drawTail, h1w, h2w, Nat.pos_of_ne_zero, alphaByte_255]
        apply frameOf_clear_cover0_inv1 c1
        exact invisible_of_alpha rfl
      · norm_num [renderCall, drawTail, h1w, h2w, Nat.pos_of_ne_zero, alphaByte_255]
        exact frameOf_clear_any0_cover1 c2
    · -- Cross-Fade
      constructor
      · norm_num [renderCall, drawTail, h1w, h2w, Nat.pos_of_ne_zero, alphaByte_zero]
        apply frameOf_clear_cover0_inv1 c1
        exact invisible_of_alpha rfl
      · norm_num [renderCall, drawTail, h1w, h2w, Nat.pos_of_ne_zero, alphaByte_255]
        exact frameOf_clear_any0_cover1 c2
    · -- Page Turn Horizontal
      constructor
      · norm_num [renderCall, drawTail, h1w, h2w, Nat.pos_of_ne_zero]
        exact frameOf_clear_cover0 cc1
      · norm_num [renderCall, drawTail, h1w, h2w, Nat.pos_of_ne_zero]
        exact frameOf_clear_cover1 cc2
    · -- Page Turn Vertical
      constructor
      · norm_num [renderCall, drawTail, h1w, h2w, Nat.pos_of_ne_zero]
        exact frameOf_clear_cover0 cc1
      · norm_num [renderCall, drawTail, h1w, h2w, Nat.pos_of_ne_zero]
        exact frameOf_clear_cover1 cc2
    · -- Shutter Open
      constructor
      · norm_num [renderCall, drawTail, h1w, h2w, Nat.pos_of_ne_zero]
        exact frameOf_clear_any1_cover0 (fullCover_shutter t1 h1w h1h)
      · norm_num [renderCall, drawTail, h1w, h2w, Nat.pos_of_ne_zero]
        apply frameOf_clear_cover1_inv0 c2
        exact invisible_of_scaleX rfl
    · -- Blur Fade
      constructor
      · norm_num [renderCall, drawTail, h1w, h2w, Nat.pos_of_ne_zero]
        exact frameOf_cover0 c1
      · norm_num [renderCall, drawTail, h1w, h2w, Nat.pos_of_ne_zero]
        exact frameOf_cover1 c2
    · -- Fly Away
      constructor
      · norm_num [renderCall, drawTail, h1w, h2w, Nat.pos_of_ne_zero, alphaByte_255]
        exact frameOf_clear_cover0 cc1
      · norm_num [renderCall, drawTail, h1w, h2w, Nat.pos_of_ne_zero, alphaByte_255]
        exact frameOf_clear_cover1 cc2
  · -- Luma Wipe at progress 0 shows image A
    intro t1 t2 st h1w h1h h2w h2h
    norm_num [renderCall, h1w, h2w, Nat.pos_of_ne_zero]
    apply frameOf_cover0_inv1 (resetSprite_fullCover t1 h1w h1h)
    exact invisible_of_luma le_rfl
  · -- Luma Wipe pixels at progress 1
    intro pa pb prev ha hb
    exact ⟨fun h => lumaWipe_from_B hb (by norm_num; linarith),
           fun h => lumaWipe_from_A ha (by linarith)⟩

/-- C1 (counterexample to the claim as stated): Luma Wipe is not a
perspective kind, yet at progress 1 with B a black opaque pixel and A a
red opaque pixel the rendered pixel equals A's pixel, not B's pixel —
progress 1 does not reproduce image B. -/
theorem c1_counterexample :
    lumaWipePixel 1 ⟨1, 0, 0, 1⟩ ⟨0, 0, 0, 1⟩ ⟨0, 0, 1, 1⟩ = ⟨1, 0, 0, 1⟩ ∧
    (⟨1, 0, 0, 1⟩ : Color) ≠ ⟨0, 0, 0, 1⟩ := by
  constructor
  · with_unfolding_all rfl
  · intro h
    exact absurd (congrArg Color.r h) (by norm_num)

/-- C1 witness: the amended theorem applied at Slide Left with concrete
2×2 and 4×4 images, and at a concrete Luma Wipe pixel. -/
theorem c1_endpoints_amended_witness :
    ((0 : ℕ) ∈ ([0, 1, 2, 3, 4, 5, 6, 7, 8, 9, 10, 11, 15] : List ℕ)) ∧
    (Tex.mk 2 2).w ≠ 0 ∧
    frameOf ⟨2, 2⟩ ⟨4, 4⟩
      (renderCall 0 0 ⟨2, 2⟩ ⟨4, 4⟩
        ⟨resetSprite ⟨2, 2⟩, resetSprite ⟨4, 4⟩, false, false⟩).1 =
      FrameD.fullImage 0 ∧
    lumaWipePixel 1 ⟨1, 0, 0, 1⟩ ⟨1, 1, 1, 1⟩ ⟨0, 0, 1, 1⟩ = ⟨1, 1, 1, 1⟩ := by
  refine ⟨by norm_num, by norm_num, ?_, ?_⟩
  · exact (c1_endpoints_amended.1 0 (by norm_num) ⟨2, 2⟩ ⟨4, 4⟩
      ⟨resetSprite ⟨2, 2⟩, resetSprite ⟨4, 4⟩, false, false⟩
      (by norm_num) (by norm_num) (by norm_num) (by norm_num)).1
  · exact (c1_endpoints_amended.2.2 ⟨1, 0, 0, 1⟩ ⟨1, 1, 1, 1⟩ ⟨0, 0, 1, 1⟩
      rfl rfl).1 (by norm_num [lumaOf])

/-! ## Claim C2 -/

/-- C2 (counterexample to the claim as stated): at progress `1/2`
(threshold `0.5`, i.e. byte threshold `127.5`), a pixel of B with luma
`0.55` produces a blended output pixel that equals neither A's pixel nor
B's pixel, so the output is not always taken exactly from A or B, and the
`luma ≥ threshold` rule does not hold. -/
theorem c2_counterexample :
    lumaWipePixel (1/2) ⟨0, 0, 0, 1⟩ ⟨11/20, 11/20, 11/20, 1⟩ ⟨0, 0, 0, 1⟩ =
      ⟨11/40, 11/40, 11/40, 1⟩ ∧
    (⟨11/40, 11/40, 11/40, 1⟩ : Color) ≠ ⟨0, 0, 0, 1⟩ ∧
    (⟨11/40, 11/40, 11/40, 1⟩ : Color) ≠ ⟨11/20, 11/20, 11/20, 1⟩ := by
  refine ⟨by with_unfolding_all rfl, fun h => ?_, fun h => ?_⟩
  · exact absurd (congrArg Color.r h) (by norm_num)
  · exact absurd (congrArg Color.r h) (by norm_num)

/-- C2 (amended).  With both sources opaque, the luma-wipe output pixel
equals B's pixel exactly where B's luma is at least `threshold + 0.1`
(threshold `1 - progress` on the normalised scale, i.e.
`(1-progress)·255` in bytes), equals A's pixel exactly where B's luma is
at most the threshold, is a smoothstep blend of the two in the soft band
between, and always has alpha 255 (fully opaque). -/
theorem c2_luma_wipe_amended (p : ℚ) (pa pb prev : Color)
    (ha : pa.a = 1) (hb : pb.a = 1) :
    ((1 - p) + 1/10 ≤ lumaOf pb →
      lumaWipePixel p pa pb prev = ⟨pb.r, pb.g, pb.b, 1⟩) ∧
    (lumaOf pb ≤ 1 - p → lumaWipePixel p pa pb prev = pa) ∧
    (lumaWipePixel p pa pb prev).a = 1 ∧
    (lumaWipePixel p pa pb prev).r =
      pb.r * smoothstep (1 - p) ((1 - p) + 1/10) (lumaOf pb) +
      pa.r * (1 - smoothstep (1 - p) ((1 - p) + 1/10) (lumaOf pb)) := by
  refine ⟨fun h => lumaWipe_from_B hb h, fun h => lumaWipe_from_A ha h,
          lumaWipe_opaque p pb prev ha, ?_⟩
  simp only [lumaWipePixel, lumaShaderPixel, blendOver, ha, hb]
  ring

/-- C2 witness: the amended theorem applied at progress `1/2` with a
white B pixel (luma 1 ≥ 0.6, taken from B) over a red A pixel. -/
theorem c2_luma_wipe_amended_witness :
    (Color.mk 1 0 0 1).a = 1 ∧ (Color.mk 1 1 1 1).a = 1 ∧
    ((1 - 1/2) + 1/10 ≤ lumaOf ⟨1, 1, 1, 1⟩ ∧
     lumaWipePixel (1/2) ⟨1, 0, 0, 1⟩ ⟨1, 1, 1, 1⟩ ⟨0, 0, 1, 1⟩ =
       ⟨(1 : ℚ), 1, 1, 1⟩) ∧
    (lumaWipePixel (1/2) ⟨1, 0, 0, 1⟩ ⟨1, 1, 1, 1⟩ ⟨0, 0, 1, 1⟩).a = 1 := by
  have h : (1 - 1/2 : ℚ) + 1/10 ≤ lumaOf ⟨1, 1, 1, 1⟩ := by norm_num [lumaOf]
  refine ⟨rfl, rfl, ⟨h, ?_⟩, ?_⟩
  · exact (c2_luma_wipe_amended (1/2) ⟨1, 0, 0, 1⟩ ⟨1, 1, 1, 1⟩ ⟨0, 0, 1, 1⟩
      rfl rfl).1 h
  · exact (c2_luma_wipe_amended (1/2) ⟨1, 0, 0, 1⟩ ⟨1, 1, 1, 1⟩ ⟨0, 0, 1, 1⟩
      rfl rfl).2.2.1

/-! ## Claim C3 -/

/-- C3 (counterexample to the claim as stated): the spec's schedule says
the radius reaches its maximum at progress 0.45, but the code's radius at
0.45 is `0.9 · 150 = 135`, not the maximum 150 (which is attained at
progress 0.5): the ramp breakpoints 0.45/0.55 are not reproduced by the
radius math. -/
theorem c3_counterexample :
    specBlurRadius (9/20) = 150 ∧ blurRadiusOf (9/20) = 135 ∧
    blurRadiusOf (1/2) = 150 ∧ (135 : ℚ) ≠ 150 := by
  refine ⟨?_, ?_, ?_, by norm_num⟩ <;>
    norm_num [specBlurRadius, blurRadiusOf, blurStrength]

/-- C3 (amended).  In BlurFade the radius ramps linearly from 0 to its
maximum 150 over progress in [0, 0.5] and back to 0 over [0.5, 1]
(`blurStrength = 2p` up, `2(1-p)` down); the breakpoints 0.45/0.55 govern
only which sprites are drawn: below 0.45 only A is drawn (blurred), above
0.55 only B (blurred), and on [0.45, 0.55] both are drawn blurred with
opacities cross-fading linearly at rate 10; additionally, at progress
≤ 0.01 only A is drawn unblurred and at ≥ 0.99 only B unblurred. -/
theorem c3_blur_fade_amended (p : ℚ) (t1 t2 : Tex) (st : RState)
    (h1w : t1.w ≠ 0) (h2w : t2.w ≠ 0) :
    blurRadiusOf p = (if p ≤ 1/2 then p * 2 else (1 - p) * 2) * 150 ∧
    (0 ≤ p → p ≤ 1 → blurRadiusOf p ≤ 150) ∧
    blurRadiusOf (1/2) = 150 ∧
    (p ≤ 1/100 →
      (renderCall 11 p t1 t2 st).1 = [Op.sprite 0 (resetSprite t1) st.sm1 none]) ∧
    (99/100 ≤ p →
      (renderCall 11 p t1 t2 st).1 = [Op.sprite 1 (resetSprite t2) st.sm2 none]) ∧
    (1/100 < p → p < 9/20 →
      (renderCall 11 p t1 t2 st).1 =
        [Op.sprite 0 (resetSprite t1) st.sm1 (some (Shader.blur (blurRadiusOf p)))]) ∧
    (11/20 < p → p < 99/100 →
      (renderCall 11 p t1 t2 st).1 =
        [Op.sprite 1 (resetSprite t2) st.sm2 (some (Shader.blur (blurRadiusOf p)))]) ∧
    (9/20 ≤ p → p ≤ 11/20 →
      (renderCall 11 p t1 t2 st).1 =
        [Op.sprite 0
           { resetSprite t1 with alpha := alphaByte (255 * (1 - (p - 9/20) * 10)) }
           st.sm1 (some (Shader.blur (blurRadiusOf p))),
         Op.sprite 1
           { resetSprite t2 with alpha := alphaByte (255 * ((p - 9/20) * 10)) }
           st.sm2 (some (Shader.blur (blurRadiusOf p)))]) := by
  refine ⟨rfl, ?_, by norm_num [blurRadiusOf, blurStrength], ?_, ?_, ?_, ?_, ?_⟩
  · intro h0 h1
    unfold blurRadiusOf blurStrength
    split_ifs with h <;> linarith
  · intro hp
    norm_num [renderCall, h1w, h2w, Nat.pos_of_ne_zero, hp]
  · intro hp
    have h1 : ¬ p ≤ 1/100 := by linarith
    norm_num [renderCall, h1w, h2w, Nat.pos_of_ne_zero, h1, hp]
  · intro hp1 hp2
    have h1 : ¬ p ≤ 1/100 := by linarith
    have h2 : ¬ 99/100 ≤ p := by linarith
    norm_num [renderCall, h1w, h2w, Nat.pos_of_ne_zero, h1, h2, hp2]
  · intro hp1 hp2
    have h1 : ¬ p ≤ 1/100 := by linarith
    have h2 : ¬ 99/100 ≤ p := by linarith
    have h3 : ¬ p < 9/20 := by linarith
    norm_num [renderCall, h1w, h2w, Nat.pos_of_ne_zero, h1, h2, h3, hp1]
  · intro hp1 hp2
    have h1 : ¬ p ≤ 1/100 := by linarith
    have h2 : ¬ 99/100 ≤ p := by linarith
    have h3 : ¬ p < 9/20 := by linarith
    have h4 : ¬ 11/20 < p := by linarith
    norm_num [renderCall, h1w, h2w, Nat.pos_of_ne_zero, h1, h2, h3, h4]
    exact ⟨⟨rfl, rfl, rfl⟩, rfl, rfl, rfl⟩

/-- C3 witness: the amended theorem applied at progress 1/2 (both images
drawn blurred at the radius maximum, opacities mid-fade). -/
theorem c3_blur_fade_amended_witness :
    (9/20 : ℚ) ≤ 1/2 ∧ (1/2 : ℚ) ≤ 11/20 ∧ (Tex.mk 3 2).w ≠ 0 ∧
    (renderCall 11 (1/2) ⟨3, 2⟩ ⟨5, 4⟩
        ⟨resetSprite ⟨3, 2⟩, resetSprite ⟨5, 4⟩, false, false⟩).1 =
      [Op.sprite 0
         { resetSprite ⟨3, 2⟩ with alpha := alphaByte (255 * (1 - (1/2 - 9/20) * 10)) }
         false (some (Shader.blur (blurRadiusOf (1/2)))),
       Op.sprite 1
         { resetSprite ⟨5, 4⟩ with alpha := alphaByte (255 * ((1/2 - 9/20) * 10)) }
         false (some (Shader.blur (blurRadiusOf (1/2))))] := by
  refine ⟨by norm_num, by norm_num, by norm_num, ?_⟩
  exact (c3_blur_fade_amended (1/2) ⟨3, 2⟩ ⟨5, 4⟩
      ⟨resetSprite ⟨3, 2⟩, resetSprite ⟨5, 4⟩, false, false⟩
      (by norm_num) (by norm_num)).2.2.2.2.2.2.2 (by norm_num) (by norm_num)

/-! ## Claim C4 -/

/-- C4 (counterexample to the claim as stated): two calls with identical
kind (Slide Left), progress (0.5) and images (2×2 each) produce different
draw operations depending on whether a Cube Rotate frame was rendered
before: case 12 calls `setSmooth(true)` on both textures and nothing ever
resets it, so the later frame samples its textures smoothed. -/
theorem c4_counterexample :
    (renderCall 0 (1/2) ⟨2, 2⟩ ⟨2, 2⟩
        ⟨resetSprite ⟨2, 2⟩, resetSprite ⟨2, 2⟩, false, false⟩).1 ≠
    (renderCall 0 (1/2) ⟨2, 2⟩ ⟨2, 2⟩
        ((renderCall 12 (1/2) ⟨2, 2⟩ ⟨2, 2⟩
          ⟨resetSprite ⟨2, 2⟩, resetSprite ⟨2, 2⟩, false, false⟩).2)).1 := by
  intro h
  have hsm := congrArg (List.map opSmooth) h
  have e1 : ((renderCall 0 (1/2) ⟨2, 2⟩ ⟨2, 2⟩
      ⟨resetSprite ⟨2, 2⟩, resetSprite ⟨2, 2⟩, false, false⟩).1).map opSmooth =
      [none, some false, some false] := by with_unfolding_all rfl
  have e2 : ((renderCall 0 (1/2) ⟨2, 2⟩ ⟨2, 2⟩
      ((renderCall 12 (1/2) ⟨2, 2⟩ ⟨2, 2⟩
        ⟨resetSprite ⟨2, 2⟩, resetSprite ⟨2, 2⟩, false, false⟩).2)).1).map opSmooth =
      [none, some true, some true] := by with_unfolding_all rfl
  rw [e1, e2] at hsm
  simp at hsm

/-- C4 (amended).  The draw operations of a frame are a function of
(kind, progress, the two images, the two textures' smoothing flags) alone:
the incoming sprite transform state is fully reset and never leaks into
the output.  But the smoothing flags are extra inter-frame memory: Cube
Rotate (case 12, with both images present) sets both to `true`
persistently, while every other kind leaves them unchanged, so a frame
rendered after a Cube Rotate frame may differ from the same frame rendered
before one. -/
theorem c4_state_amended :
    (∀ (type : ℕ) (p : ℚ) (t1 t2 : Tex) (a b a2 b2 : SpriteState) (m1 m2 : Bool),
      (renderCall type p t1 t2 ⟨a, b, m1, m2⟩).1 =
      (renderCall type p t1 t2 ⟨a2, b2, m1, m2⟩).1) ∧
    (∀ (p : ℚ) (t1 t2 : Tex) (st : RState), t1.w ≠ 0 → t2.w ≠ 0 →
      (renderCall 12 p t1 t2 st).2.sm1 = true ∧
      (renderCall 12 p t1 t2 st).2.sm2 = true) ∧
    (∀ (type : ℕ) (p : ℚ) (t1 t2 : Tex) (st : RState), type ≠ 12 →
      (renderCall type p t1 t2 st).2.sm1 = st.sm1 ∧
      (renderCall type p t1 t2 st).2.sm2 = st.sm2) := by
  refine ⟨?_, ?_, ?_⟩
  · intro type p t1 t2 a b a2 b2 m1 m2
    by_cases hw1 : 0 < t1.w <;> by_cases hw2 : 0 < t2.w
    · simp only [renderCall, if_pos hw1, if_pos hw2]
    · have hm : t1.w = 0 ∨ t2.w = 0 := Or.inr (by omega)
      simp only [renderCall, if_pos hw1, if_neg hw2, if_pos hm]
    · have hm : t1.w = 0 ∨ t2.w = 0 := Or.inl (by omega)
      simp only [renderCall, if_neg hw1, if_pos hw2, if_pos hm]
    · have hm : t1.w = 0 ∨ t2.w = 0 := Or.inl (by omega)
      simp only [renderCall, if_neg hw1, if_neg hw2, if_pos hm]
  · intro p t1 t2 st h1w h2w
    constructor <;> norm_num [renderCall, h1w, h2w, Nat.pos_of_ne_zero]
  · intro type p t1 t2 st htype
    constructor <;>
      simp [renderCall, htype, apply_ite Prod.snd, apply_ite RState.sm1,
            apply_ite RState.sm2]

/-- C4 witness: the amended theorem applied at Slide Left with concrete
sprite states and at Cross-Fade for smoothing preservation. -/
theorem c4_state_amended_witness :
    (renderCall 0 (1/2) ⟨2, 2⟩ ⟨2, 2⟩
       ⟨resetSprite ⟨2, 2⟩, resetSprite ⟨2, 2⟩, true, false⟩).1 =
    (renderCall 0 (1/2) ⟨2, 2⟩ ⟨2, 2⟩
       ⟨resetSprite ⟨4, 4⟩, resetSprite ⟨8, 8⟩, true, false⟩).1 ∧
    (Tex.mk 2 2).w ≠ 0 ∧
    (renderCall 12 (1/2) ⟨2, 2⟩ ⟨2, 2⟩
       ⟨resetSprite ⟨2, 2⟩, resetSprite ⟨2, 2⟩, false, false⟩).2.sm1 = true ∧
    (7 : ℕ) ≠ 12 ∧
    (renderCall 7 (1/2) ⟨2, 2⟩ ⟨2, 2⟩
       ⟨resetSprite ⟨2, 2⟩, resetSprite ⟨2, 2⟩, true, false⟩).2.sm1 = true := by
  refine ⟨c4_state_amended.1 0 (1/2) ⟨2, 2⟩ ⟨2, 2⟩ _ _ _ _ true false,
          by norm_num, ?_, by norm_num, ?_⟩
  · exact (c4_state_amended.2.1 (1/2) ⟨2, 2⟩ ⟨2, 2⟩ _
      (by norm_num) (by norm_num)).1
  · exact (c4_state_amended.2.2 7 (1/2) ⟨2, 2⟩ ⟨2, 2⟩ _ (by norm_num)).1

/-- The missing-image branch: if either texture has zero width, the
renderer draws exactly the present, reset sprites and nothing else. -/
theorem renderCall_missing (type : ℕ) (p : ℚ) (t1 t2 : Tex) (st : RState)
    (h : t1.w = 0 ∨ t2.w = 0) :
    (renderCall type p t1 t2 st).1 =
      (if 0 < t1.w then [Op.sprite 0 (resetSprite t1) st.sm1 none] else []) ++
      (if 0 < t2.w then [Op.sprite 1 (resetSprite t2) st.sm2 none] else []) := by
  unfold renderCall
  rw [if_pos h]
  by_cases hw1 : 0 < t1.w <;> by_cases hw2 : 0 < t2.w <;> simp [hw1, hw2]

/-! ## Claim C5 -/

/-- C5 (confirmed).  If either texture is absent (the code tests a zero
width), the renderer draws exactly the present sprites — reset to full
opacity, no rotation, position (0,0), canvas-fit scale, no shader — and
returns; no per-effect geometry or photometry is applied, for every
transition kind and every progress. -/
theorem c5_missing_image (type : ℕ) (p : ℚ) (t1 t2 : Tex) (st : RState)
    (h : t1.w = 0 ∨ t2.w = 0) :
    (renderCall type p t1 t2 st).1 =
      (if 0 < t1.w then [Op.sprite 0 (resetSprite t1) st.sm1 none] else []) ++
      (if 0 < t2.w then [Op.sprite 1 (resetSprite t2) st.sm2 none] else []) ∧
    ∀ t : Tex, (resetSprite t).alpha = 255 ∧ (resetSprite t).rot = 0 ∧
      (resetSprite t).posX = 0 ∧ (resetSprite t).posY = 0 ∧
      (resetSprite t).originX = 0 ∧ (resetSprite t).originY = 0 ∧
      (resetSprite t).scaleX = canvasW / t.w ∧
      (resetSprite t).scaleY = canvasH / t.h := by
  constructor
  · exact renderCall_missing type p t1 t2 st h
  · intro t
    exact ⟨rfl, rfl, rfl, rfl, rfl, rfl, rfl, rfl⟩

/-- C5 witness: image A absent, image B 3×2, at Ring kind and progress
0.7: only B is drawn, reset. -/
theorem c5_missing_image_witness :
    ((Tex.mk 0 0).w = 0 ∨ (Tex.mk 3 2).w = 0) ∧
    (renderCall 13 (7/10) ⟨0, 0⟩ ⟨3, 2⟩
        ⟨resetSprite ⟨2, 2⟩, resetSprite ⟨2, 2⟩, false, false⟩).1 =
      (if 0 < (Tex.mk 0 0).w then
        [Op.sprite 0 (resetSprite ⟨0, 0⟩) false none] else []) ++
      (if 0 < (Tex.mk 3 2).w then
        [Op.sprite 1 (resetSprite ⟨3, 2⟩) false none] else []) := by
  refine ⟨Or.inl rfl, ?_⟩
  exact (c5_missing_image 13 (7/10) ⟨0, 0⟩ ⟨3, 2⟩
    ⟨resetSprite ⟨2, 2⟩, resetSprite ⟨2, 2⟩, false, false⟩ (Or.inl rfl)).1

/-! ## Claim C6 -/

/-- C6 (counterexample to the claim as stated): with both images absent
the renderer issues no operation at all — no clear, no draw — so the
previous canvas content survives in full: two different previous canvases
give two different produced frames. -/
theorem c6_counterexample :
    (renderCall 0 (1/2) ⟨0, 0⟩ ⟨0, 0⟩
        ⟨resetSprite ⟨2, 2⟩, resetSprite ⟨2, 2⟩, false, false⟩).1 = [] ∧
    applyOps (fun _ c => c)
      (renderCall 0 (1/2) ⟨0, 0⟩ ⟨0, 0⟩
        ⟨resetSprite ⟨2, 2⟩, resetSprite ⟨2, 2⟩, false, false⟩).1
      (fun _ => ⟨1, 0, 0, 1⟩) (0, 0) ≠
    applyOps (fun _ c => c)
      (renderCall 0 (1/2) ⟨0, 0⟩ ⟨0, 0⟩
        ⟨resetSprite ⟨2, 2⟩, resetSprite ⟨2, 2⟩, false, false⟩).1
      (fun _ => ⟨0, 0, 1, 1⟩) (0, 0) := by
  have e : (renderCall 0 (1/2) ⟨0, 0⟩ ⟨0, 0⟩
      ⟨resetSprite ⟨2, 2⟩, resetSprite ⟨2, 2⟩, false, false⟩).1 = [] := by
    with_unfolding_all rfl
  refine ⟨e, ?_⟩
  rw [e]
  intro h
  exact absurd (congrArg Color.r h) (by norm_num [applyOps])

/-- C6 (amended).  With both images present, every kind except BlurFade
(11) and LumaWipe (14) begins with a full-canvas clear, so the produced
frame is independent of the previous canvas content under any draw
semantics.  BlurFade and LumaWipe never clear (they overdraw the canvas
with canvas-fitted sprites instead), and the missing-image branch never
clears; with both images absent nothing is drawn and the previous frame
survives entirely. -/
theorem c6_overwrite_amended :
    (∀ (dS : Op → Canvas → Canvas) (k : ℕ)
       (_hk : k ∈ ([0, 1, 2, 3, 4, 5, 6, 7, 8, 9, 10, 12, 13, 15] : List ℕ))
       (p : ℚ) (t1 t2 : Tex) (st : RState), t1.w ≠ 0 → t2.w ≠ 0 →
       ∀ c c2 : Canvas,
       applyOps dS (renderCall k p t1 t2 st).1 c =
       applyOps dS (renderCall k p t1 t2 st).1 c2) ∧
    (∀ (p : ℚ) (t1 t2 : Tex) (st : RState),
       Op.clear ∉ (renderCall 11 p t1 t2 st).1 ∧
       Op.clear ∉ (renderCall 14 p t1 t2 st).1) := by
  constructor
  · intro dS k hk p t1 t2 st h1w h2w c c2
    fin_cases hk <;>
      · norm_num [renderCall, drawTail, h1w, h2w, Nat.pos_of_ne_zero]
        first
          | rfl
          | (split_ifs <;> rfl)
  · intro p t1 t2 st
    by_cases hm : t1.w = 0 ∨ t2.w = 0
    · rw [renderCall_missing 11 p t1 t2 st hm, renderCall_missing 14 p t1 t2 st hm]
      constructor <;> (split_ifs <;> simp)
    · push_neg at hm
      obtain ⟨h1w, h2w⟩ := hm
      constructor
      · norm_num [renderCall, h1w, h2w, Nat.pos_of_ne_zero]
        split_ifs <;> simp
      · norm_num [renderCall, h1w, h2w, Nat.pos_of_ne_zero]
        exact ⟨fun h => Op.noConfusion h, fun h => Op.noConfusion h⟩

/-- C6 witness: the amended theorem applied at Fade to Black with two
distinct previous canvases and the identity draw semantics. -/
theorem c6_overwrite_amended_witness :
    ((6 : ℕ) ∈ ([0, 1, 2, 3, 4, 5, 6, 7, 8, 9, 10, 12, 13, 15] : List ℕ)) ∧
    (Tex.mk 2 2).w ≠ 0 ∧
    applyOps (fun _ c => c)
      (renderCall 6 (1/4) ⟨2, 2⟩ ⟨2, 2⟩
        ⟨resetSprite ⟨2, 2⟩, resetSprite ⟨2, 2⟩, false, false⟩).1
      (fun _ => ⟨1, 0, 0, 1⟩) =
    applyOps (fun _ c => c)
      (renderCall 6 (1/4) ⟨2, 2⟩ ⟨2, 2⟩
        ⟨resetSprite ⟨2, 2⟩, resetSprite ⟨2, 2⟩, false, false⟩).1
      (fun _ => ⟨0, 0, 1, 1⟩) := by
  refine ⟨by norm_num, by norm_num, ?_⟩
  exact c6_overwrite_amended.1 (fun _ c => c) 6 (by norm_num) (1/4) ⟨2, 2⟩ ⟨2, 2⟩
    ⟨resetSprite ⟨2, 2⟩, resetSprite ⟨2, 2⟩, false, false⟩
    (by norm_num) (by norm_num) _ _

/-! ## Claim C9 -/

/-- C9 (counterexample to the claim as stated): radius `1/2` is less
than 1 but not less than the shader's actual identity threshold `0.001`,
and on a step texture the 17×17 weighted average at the step edge is
strictly below the centre sample: the image is changed. -/
theorem c9_counterexample :
    (1/2 : ℚ) < 1 ∧ ¬ ((1/2 : ℚ) < 1/1000) ∧
    blurChan stepTex (1/2) (0, 0) ≠ ((stepTex (0, 0) : ℚ) : ℝ) := by
  refine ⟨by norm_num, by norm_num, ?_⟩
  have hstep0 : (stepTex (0, 0) : ℚ) = 1 := by norm_num [stepTex]
  have hWpos : (0 : ℝ) <
      ∑ x ∈ Finset.Icc (-8 : ℤ) 8, ∑ y ∈ Finset.Icc (-8 : ℤ) 8, blurWeight x y := by
    refine Finset.sum_pos (fun x _ => ?_) ⟨0, by decide⟩
    exact Finset.sum_pos (fun y _ => Real.exp_pos _) ⟨0, by decide⟩
  have hlt : (∑ x ∈ Finset.Icc (-8 : ℤ) 8, ∑ y ∈ Finset.Icc (-8 : ℤ) 8,
        blurWeight x y *
          (stepTex ((0 : ℚ) + x * spreadOf (1/2), (0 : ℚ) + y * spreadOf (1/2)) : ℝ)) <
      ∑ x ∈ Finset.Icc (-8 : ℤ) 8, ∑ y ∈ Finset.Icc (-8 : ℤ) 8, blurWeight x y := by
    refine Finset.sum_lt_sum (fun x _ => ?_) ⟨-8, by decide, ?_⟩
    · refine Finset.sum_le_sum (fun y _ => ?_)
      have hle : (stepTex ((0 : ℚ) + x * spreadOf (1/2), (0 : ℚ) + y * spreadOf (1/2)) : ℚ) ≤ 1 := by
        unfold stepTex
        split_ifs <;> norm_num
      have hle2 : ((stepTex ((0 : ℚ) + x * spreadOf (1/2), (0 : ℚ) + y * spreadOf (1/2)) : ℚ) : ℝ) ≤ 1 := by
        exact_mod_cast hle
      exact mul_le_of_le_one_right (le_of_lt (Real.exp_pos _)) hle2
    · calc (∑ y ∈ Finset.Icc (-8 : ℤ) 8, blurWeight (-8) y *
              (stepTex ((0 : ℚ) + ((-8 : ℤ) : ℚ) * spreadOf (1/2),
                        (0 : ℚ) + (y : ℚ) * spreadOf (1/2)) : ℝ))
          = 0 :=
            Finset.sum_eq_zero (fun y _ => by norm_num [stepTex, spreadOf])
        _ < ∑ y ∈ Finset.Icc (-8 : ℤ) 8, blurWeight (-8) y :=
            Finset.sum_pos (fun y _ => Real.exp_pos _) ⟨0, by decide⟩
  have hval : blurChan stepTex (1/2) (0, 0) < 1 := by
    unfold blurChan
    rw [if_neg (by norm_num)]
    exact (div_lt_one hWpos).mpr hlt
  rw [hstep0]
  push_cast
  exact ne_of_lt hval

/-- C9 (amended).  The blur shader returns the input pixel unchanged
exactly when the radius is below the shader's short-circuit threshold
`0.001` (in particular at radius 0); this is the identity law the code
actually implements, not `radius < 1`. -/
theorem c9_blur_identity_amended (tex : ℚ × ℚ → ℚ) (radius : ℚ)
    (c : ℚ × ℚ) (h : radius < 1/1000) :
    blurChan tex radius c = (tex c : ℝ) := by
  unfold blurChan
  rw [if_pos h]

/-- C9 witness: identity at radius 0 on the step texture. -/
theorem c9_blur_identity_amended_witness :
    (0 : ℚ) < 1/1000 ∧ blurChan stepTex 0 (0, 0) = ((stepTex (0, 0) : ℚ) : ℝ) :=
  ⟨by with_unfolding_all decide,
   c9_blur_identity_amended stepTex 0 (0, 0) (by with_unfolding_all decide)⟩

/-! ## Claim C10 -/

/-- C10 (confirmed).  The requested frame count is clamped to [10, 1000];
the export loop then produces exactly `F + 1` progress samples
`0, 1/F, …, 1` in strictly increasing order, where `F` is the clamped
count. -/
theorem c10_export_sequence (n : ℤ) :
    10 ≤ (clampFrames n).toNat ∧ (clampFrames n).toNat ≤ 1000 ∧
    (exportSeq n).length = (clampFrames n).toNat + 1 ∧
    (∀ i, ∀ h : i < (exportSeq n).length,
      (exportSeq n).get ⟨i, h⟩ = exportProgress (clampFrames n).toNat i ∧
      exportProgress (clampFrames n).toNat i =
        (i : ℚ) / ((clampFrames n).toNat : ℚ)) ∧
    (exportSeq n).head? = some 0 ∧
    (exportSeq n).getLast? = some 1 ∧
    (exportSeq n).Pairwise (· < ·) := by
  have hcl : 10 ≤ clampFrames n ∧ clampFrames n ≤ 1000 := by
    unfold clampFrames
    split_ifs <;> omega
  have h10 : 10 ≤ (clampFrames n).toNat := by omega
  have h1000 : (clampFrames n).toNat ≤ 1000 := by omega
  have hFpos : (0 : ℚ) < ((clampFrames n).toNat : ℚ) := by
    have hp : 0 < (clampFrames n).toNat := by omega
    exact_mod_cast hp
  refine ⟨h10, h1000, ?_, ?_, ?_, ?_, ?_⟩
  · simp only [exportSeq, exportProgressList, List.length_map, List.length_range]
  · intro i h
    refine ⟨?_, rfl⟩
    simp only [exportSeq, exportProgressList, List.get_eq_getElem, List.getElem_map,
      List.getElem_range]
  · rw [exportSeq, exportProgressList, List.range_succ_eq_map]
    simp [exportProgress]
  · rw [exportSeq, exportProgressList, List.range_succ]
    simp [exportProgress, div_self (ne_of_gt hFpos)]
  · rw [exportSeq, exportProgressList]
    refine List.Pairwise.map _ (fun a b hab => ?_) (List.pairwise_lt_range _)
    exact div_lt_div_of_pos_right (by exact_mod_cast hab) hFpos

/-- C10 witness: the theorem applied at the requested count 0 (clamped to
10): 11 samples, the fourth being 3/10. -/
theorem c10_export_sequence_witness :
    (exportSeq 0).length = (clampFrames 0).toNat + 1 ∧
    (exportSeq 0).get ⟨3, by with_unfolding_all decide⟩ =
      exportProgress (clampFrames 0).toNat 3 ∧
    (exportSeq 0).getLast? = some 1 :=
  ⟨(c10_export_sequence 0).2.2.1,
   ((c10_export_sequence 0).2.2.2.1 3 (by with_unfolding_all decide)).1,
   (c10_export_sequence 0).2.2.2.2.2.1⟩

/-! ## Trigonometric helpers for the perspective claims -/

theorem quarterTurn_pos : (0 : ℝ) < quarterTurn := by norm_num [quarterTurn]

theorem quarterTurn_lt_three : quarterTurn < 3 := by norm_num [quarterTurn]

theorem quarterTurn_lt_pi : quarterTurn < Real.pi :=
  lt_trans quarterTurn_lt_three Real.pi_gt_three

/-- On `(-π, π)`, `sin` is positive exactly on the positive half. -/
theorem sin_pos_iff_aux {x : ℝ} (h1 : -Real.pi < x) (h2 : x < Real.pi) :
    0 < Real.sin x ↔ 0 < x := by
  constructor
  · intro hs
    by_contra hx
    push_neg at hx
    have := Real.sin_nonpos_of_nonnpos_of_neg_pi_le hx (le_of_lt h1)
    linarith
  · intro hx
    exact Real.sin_pos_of_pos_of_lt_pi hx h2

/-- Depth comparison of the two ring quads: image A's quad is deeper
exactly after the midpoint. -/
theorem ringZ_compare (p : ℚ) (h0 : 0 ≤ p) (h1 : p ≤ 1) :
    (ringZ (ringAngleB p) < ringZ (ringAngleA p) ↔ (1/2 : ℚ) < p) := by
  have hK := quarterTurn_pos
  have hK3 := quarterTurn_lt_three
  have hpi3 := Real.pi_gt_three
  have hp0 : (0 : ℝ) ≤ (p : ℝ) := by exact_mod_cast h0
  have hp1 : (p : ℝ) ≤ 1 := by exact_mod_cast h1
  have hsub : Real.sin (ringAngleA p) - Real.sin (ringAngleB p) =
      2 * Real.sin ((ringAngleA p - ringAngleB p) / 2) *
        Real.cos ((ringAngleA p + ringAngleB p) / 2) := Real.sin_sub_sin _ _
  have hsum : (ringAngleA p + ringAngleB p) / 2 = quarterTurn / 2 := by
    unfold ringAngleA ringAngleB
    ring
  have hcos : 0 < Real.cos ((ringAngleA p + ringAngleB p) / 2) := by
    rw [hsum]
    apply Real.cos_pos_of_mem_Ioo
    constructor
    · nlinarith [Real.pi_pos]
    · nlinarith
  have hb1 : -Real.pi < (ringAngleA p - ringAngleB p) / 2 := by
    unfold ringAngleA ringAngleB
    nlinarith
  have hb2 : (ringAngleA p - ringAngleB p) / 2 < Real.pi := by
    unfold ringAngleA ringAngleB
    nlinarith
  have hsin_iff : 0 < Real.sin ((ringAngleA p - ringAngleB p) / 2) ↔
      0 < (ringAngleA p - ringAngleB p) / 2 := sin_pos_iff_aux hb1 hb2
  have harg : (0 < (ringAngleA p - ringAngleB p) / 2) ↔ ((1/2 : ℝ) < (p : ℝ)) := by
    unfold ringAngleA ringAngleB
    constructor <;> intro h <;> nlinarith
  have hcast : ((1/2 : ℚ) < p) ↔ ((1/2 : ℝ) < (p : ℝ)) := by
    rw [show ((1 : ℝ)/2) = (((1 : ℚ)/2 : ℚ) : ℝ) by norm_num]
    exact Rat.cast_lt.symm
  unfold ringZ
  rw [mul_lt_mul_right (by norm_num [ringRadius] : (0 : ℝ) < ringRadius), ← sub_pos, hsub]
  constructor
  · intro h
    have hs : 0 < Real.sin ((ringAngleA p - ringAngleB p) / 2) := by nlinarith
    exact hcast.mpr (by simpa using harg.mp (hsin_iff.mp hs))
  · intro h
    have hs : 0 < Real.sin ((ringAngleA p - ringAngleB p) / 2) :=
      hsin_iff.mpr (harg.mpr (by simpa using hcast.mp h))
    nlinarith

/-- `sin x - cos x` rewritten through `sin_sub_sin` and
`sin (π/2 - x) = cos x`. -/
theorem sin_sub_cos_eq (x : ℝ) :
    Real.sin x - Real.cos x =
      2 * Real.sin (x - Real.pi/4) * Real.cos (Real.pi/4) := by
  have h := Real.sin_sub_sin x (Real.pi/2 - x)
  rw [Real.sin_pi_div_two_sub,
      show (x - (Real.pi/2 - x))/2 = x - Real.pi/4 by ring,
      show (x + (Real.pi/2 - x))/2 = Real.pi/4 by ring] at h
  exact h

/-- For a non-degenerate image B, `halfD` is exactly 600 (half the canvas
width, since the face is canvas-fitted). -/
theorem halfD_cast (t2 : Tex) (h2 : t2.w ≠ 0) : ((halfD t2 : ℚ) : ℝ) = 600 := by
  unfold halfD cubeDepth
  rw [natCast_mul_div h2]
  norm_num [canvasW]

theorem zFront_eq (t2 : Tex) (h2 : t2.w ≠ 0) (p : ℚ) :
    zFront t2 p = 600 - 600 * Real.cos (cubeAngle p) := by
  unfold zFront transformPoint
  simp only [halfD_cast t2 h2]
  ring

theorem zSide_eq (t1 t2 : Tex) (h1 : t1.w ≠ 0) (h2 : t2.w ≠ 0) (p : ℚ) :
    zSide t1 t2 p = 600 - 600 * Real.sin (cubeAngle p) := by
  have hf : ((faceW t1 : ℚ) : ℝ) = 1200 := by
    unfold faceW
    rw [natCast_mul_div h1]
    norm_num [canvasW]
  have hc : ((cubeDepth t2 : ℚ) : ℝ) = 1200 := by
    unfold cubeDepth
    rw [natCast_mul_div h2]
    norm_num [canvasW]
  unfold zSide transformPoint
  simp only [halfD_cast t2 h2, hf, hc]
  ring

/-- Depth comparison of the two cube faces: the front face is farther
exactly beyond `flipPoint`, and the two representative depths agree
exactly at `flipPoint`. -/
theorem cube_compare (t1 t2 : Tex) (h1 : t1.w ≠ 0) (h2 : t2.w ≠ 0)
    (p : ℚ) (hp0 : 0 ≤ p) (hp1 : p ≤ 1) :
    (zSide t1 t2 p < zFront t2 p ↔ flipPoint < (p : ℝ)) ∧
    (zFront t2 p = zSide t1 t2 p ↔ (p : ℝ) = flipPoint) := by
  have hK := quarterTurn_pos
  have hK3 := quarterTurn_lt_three
  have hpi3 := Real.pi_gt_three
  have hpipos := Real.pi_pos
  have hp0r : (0 : ℝ) ≤ (p : ℝ) := by exact_mod_cast hp0
  have hp1r : (p : ℝ) ≤ 1 := by exact_mod_cast hp1
  have hcos4 : 0 < Real.cos (Real.pi/4) := by
    rw [Real.cos_pi_div_four]
    positivity
  have hb1 : -Real.pi < cubeAngle p - Real.pi/4 := by
    unfold cubeAngle
    nlinarith
  have hb2 : cubeAngle p - Real.pi/4 < Real.pi := by
    unfold cubeAngle
    nlinarith
  have hflip : flipPoint = Real.pi / (4 * quarterTurn) := rfl
  constructor
  · rw [zFront_eq t2 h2 p, zSide_eq t1 t2 h1 h2 p]
    constructor
    · intro h
      have hsc : 0 < Real.sin (cubeAngle p) - Real.cos (cubeAngle p) := by linarith
      rw [sin_sub_cos_eq] at hsc
      have hs : 0 < Real.sin (cubeAngle p - Real.pi/4) := by nlinarith
      have harg : 0 < cubeAngle p - Real.pi/4 := (sin_pos_iff_aux hb1 hb2).mp hs
      unfold cubeAngle at harg
      rw [hflip, div_lt_iff₀ (by positivity)]
      nlinarith
    · intro h
      rw [hflip, div_lt_iff₀ (by positivity)] at h
      have harg : 0 < cubeAngle p - Real.pi/4 := by
        unfold cubeAngle
        nlinarith
      have hs : 0 < Real.sin (cubeAngle p - Real.pi/4) :=
        (sin_pos_iff_aux hb1 hb2).mpr harg
      have hsc : 0 < Real.sin (cubeAngle p) - Real.cos (cubeAngle p) := by
        rw [sin_sub_cos_eq]
        nlinarith
      linarith
  · rw [zFront_eq t2 h2 p, zSide_eq t1 t2 h1 h2 p]
    constructor
    · intro h
      have hsc : Real.sin (cubeAngle p) - Real.cos (cubeAngle p) = 0 := by linarith
      rw [sin_sub_cos_eq] at hsc
      have hs : Real.sin (cubeAngle p - Real.pi/4) = 0 := by
        rcases mul_eq_zero.mp
            (by linarith [hsc] :
              (2 * Real.sin (cubeAngle p - Real.pi/4)) * Real.cos (Real.pi/4) = 0)
          with hz | hz
        · rcases mul_eq_zero.mp hz with hz2 | hz2
          · norm_num at hz2
          · exact hz2
        · exact absurd hz (ne_of_gt hcos4)
      have harg : cubeAngle p - Real.pi/4 = 0 :=
        (Real.sin_eq_zero_iff_of_lt_of_lt hb1 hb2).mp hs
      unfold cubeAngle at harg
      rw [hflip, eq_div_iff (by positivity)]
      nlinarith
    · intro h
      rw [hflip, eq_div_iff (by positivity)] at h
      have harg : cubeAngle p - Real.pi/4 = 0 := by
        unfold cubeAngle
        nlinarith
      have hs : Real.sin (cubeAngle p - Real.pi/4) = 0 := by
        rw [harg]
        exact Real.sin_zero
      have hsc : Real.sin (cubeAngle p) - Real.cos (cubeAngle p) = 0 := by
        rw [sin_sub_cos_eq, hs]
        ring
      linarith

/-! ## Claim C7 -/

/-- C7 (confirmed).  In the Ring transition each image is a single
perspective-scaled quad with `x = side·(r − r·cos angle)`,
`z = r·sin angle`, screen scale `depth/(depth + z)`; image A's angle runs
from 0 to the quarter-turn constant (the code's 90°) as progress goes
0→1 while image B's runs the opposite way on the mirrored side; the quad
with greater z is drawn first, which happens for image A exactly when
progress exceeds 1/2. -/
theorem c7_ring_transition (p : ℚ) (hp0 : 0 ≤ p) (hp1 : p ≤ 1) :
    ringX (ringAngleA p) 1 = 1 * (ringRadius - ringRadius * Real.cos (ringAngleA p)) ∧
    ringX (ringAngleB p) (-1) =
      -1 * (ringRadius - ringRadius * Real.cos (ringAngleB p)) ∧
    ringZ (ringAngleA p) = ringRadius * Real.sin (ringAngleA p) ∧
    ringZ (ringAngleB p) = ringRadius * Real.sin (ringAngleB p) ∧
    ringS (ringAngleA p) = ringDepthC / (ringDepthC + ringZ (ringAngleA p)) ∧
    ringAngleA 0 = 0 ∧ ringAngleA 1 = quarterTurn ∧
    ringAngleB 0 = quarterTurn ∧ ringAngleB 1 = 0 ∧
    (ringQuad (ringAngleA p) 1).width = 1200 * ringS (ringAngleA p) ∧
    (ringQuad (ringAngleA p) 1).height = 800 * ringS (ringAngleA p) ∧
    (ringQuad (ringAngleA p) 1).left =
      600 + ringX (ringAngleA p) 1 - 1200 * ringS (ringAngleA p) / 2 ∧
    (ringZ (ringAngleB p) < ringZ (ringAngleA p) → ringOrder p = [0, 1]) ∧
    (ringZ (ringAngleA p) < ringZ (ringAngleB p) → ringOrder p = [1, 0]) ∧
    (ringZ (ringAngleB p) < ringZ (ringAngleA p) ↔ (1/2 : ℚ) < p) := by
  refine ⟨by unfold ringX; ring, by unfold ringX; ring, by unfold ringZ; ring,
    by unfold ringZ; ring, rfl,
    by norm_num [ringAngleA], by norm_num [ringAngleA],
    by norm_num [ringAngleB], by norm_num [ringAngleB],
    by unfold ringQuad; norm_num [canvasW],
    by unfold ringQuad; norm_num [canvasH],
    by unfold ringQuad; norm_num [canvasW, canvasH],
    fun h => by unfold ringOrder; rw [if_pos h],
    fun h => by unfold ringOrder; rw [if_neg (asymm h)],
    ringZ_compare p hp0 hp1⟩

/-- C7 witness: the theorem applied at progress 3/4 (image A deeper,
drawn first). -/
theorem c7_ring_transition_witness :
    (0 : ℚ) ≤ 3/4 ∧ (3/4 : ℚ) ≤ 1 ∧
    (ringZ (ringAngleB (3/4)) < ringZ (ringAngleA (3/4)) ↔ (1/2 : ℚ) < 3/4) ∧
    (ringZ (ringAngleB (3/4)) < ringZ (ringAngleA (3/4)) →
      ringOrder (3/4) = [0, 1]) :=
  ⟨by with_unfolding_all decide, by with_unfolding_all decide,
   (c7_ring_transition (3/4) (by with_unfolding_all decide)
      (by with_unfolding_all decide)).2.2.2.2.2.2.2.2.2.2.2.2.2.2,
   (c7_ring_transition (3/4) (by with_unfolding_all decide)
      (by with_unfolding_all decide)).2.2.2.2.2.2.2.2.2.2.2.2.1⟩

/-! ## Claim C8 -/

/-- C8 (confirmed).  In CubeRotate the draw order compares the
transformed z of one representative point per face and draws the farther
face first; as progress sweeps 0→1 the order is side-face-first
(`[1, 0]`) strictly below `flipPoint` and front-face-first (`[0, 1]`)
strictly above it, flipping exactly once, at the unique progress
`flipPoint = π/(4·quarterTurn)` where the two representative z values are
equal. -/
theorem c8_cube_depth_sort (t1 t2 : Tex) (p : ℚ)
    (h1 : t1.w ≠ 0) (h2 : t2.w ≠ 0) (hp0 : 0 ≤ p) (hp1 : p ≤ 1) :
    (zSide t1 t2 p < zFront t2 p → cubeOrder t1 t2 p = [0, 1]) ∧
    (zFront t2 p < zSide t1 t2 p → cubeOrder t1 t2 p = [1, 0]) ∧
    (cubeOrder t1 t2 p = [0, 1] ↔ flipPoint < (p : ℝ)) ∧
    (zFront t2 p = zSide t1 t2 p ↔ (p : ℝ) = flipPoint) ∧
    0 < flipPoint ∧ flipPoint < 1 := by
  obtain ⟨hlt, heq⟩ := cube_compare t1 t2 h1 h2 p hp0 hp1
  have hKpos := quarterTurn_pos
  refine ⟨fun h => by unfold cubeOrder; rw [if_pos h],
          fun h => by unfold cubeOrder; rw [if_neg (asymm h)], ?_, heq, ?_, ?_⟩
  · constructor
    · intro h
      by_cases hc : zSide t1 t2 p < zFront t2 p
      · exact hlt.mp hc
      · unfold cubeOrder at h
        rw [if_neg hc] at h
        simp at h
    · intro h
      unfold cubeOrder
      rw [if_pos (hlt.mpr h)]
  · unfold flipPoint
    positivity
  · unfold flipPoint
    rw [div_lt_one (by positivity)]
    have hpi : Real.pi < 63/20 := by
      have h := Real.pi_lt_d2
      norm_num at h
      linarith
    have hq : (156/100 : ℝ) < quarterTurn := by norm_num [quarterTurn]
    linarith

/-- C8 witness: the theorem applied at progress 1 with 2×2 images: the
front face is drawn first there. -/
theorem c8_cube_depth_sort_witness :
    (Tex.mk 2 2).w ≠ 0 ∧ (0 : ℚ) ≤ 1 ∧ (1 : ℚ) ≤ 1 ∧
    (cubeOrder ⟨2, 2⟩ ⟨2, 2⟩ 1 = [0, 1] ↔ flipPoint < ((1 : ℚ) : ℝ)) ∧
    0 < flipPoint :=
  ⟨by norm_num, by with_unfolding_all decide, by with_unfolding_all decide,
   (c8_cube_depth_sort ⟨2, 2⟩ ⟨2, 2⟩ 1 (by norm_num) (by norm_num)
      (by with_unfolding_all decide) (by with_unfolding_all decide)).2.2.1,
   (c8_cube_depth_sort ⟨2, 2⟩ ⟨2, 2⟩ 1 (by norm_num) (by norm_num)
      (by with_unfolding_all decide) (by with_unfolding_all decide)).2.2.2.2.1⟩

end ImageTransitions
